import Mathlib

/-!
Verification development for the amicii coordination server
(`src/handlers/{reservation,agent,message}.ts`, `src/handlers` project part,
`src/utils/{names,slug}.ts`, schema in `src/db.ts`).

The SQLite store is embedded shallowly: each table is a list of row records
in rowid (insertion) order, `INTEGER PRIMARY KEY` assignment is
`max existing id + 1`, ISO-8601 UTC timestamp strings are represented by
`Nat` instants (the string order is isomorphic to the time order), and SQL
`WHERE` / `JOIN` / `ORDER BY` clauses become list filter / flatMap / sort.
JavaScript string primitives used by the handlers are re-implemented over
`List Char` so that every definition evaluates inside the kernel.
-/

namespace Amicii

/-- JS `a.startsWith(b)` on character lists: `listStartsWith l p` is true
iff `p` is an initial segment of `l`. -/
def listStartsWith : List Char → List Char → Bool
  | _, [] => true
  | [], _ :: _ => false
  | c :: cs, p :: ps => c == p && listStartsWith cs ps

/-- One fuel-indexed pass of JS `String.prototype.replace(/pat/g, rep)`:
at each position, if `pat` matches, emit `rep` and resume after the match.
The fuel is the length of the scanned list, which bounds the recursion. -/
def replaceAux (pat rep : List Char) : Nat → List Char → List Char
  | 0, l => l
  | _ + 1, [] => []
  | fuel + 1, c :: cs =>
    if listStartsWith (c :: cs) pat then
      rep ++ replaceAux pat rep fuel (cs.drop (pat.length - 1))
    else
      c :: replaceAux pat rep fuel cs

/-- JS `s.replace(/pat/g, rep)` for a non-empty literal pattern. -/
def replaceAll (s pat rep : String) : String :=
  if pat.data.isEmpty then s
  else (replaceAux pat.data rep.data s.data.length s.data).asString

/-- JS `s.split("/")`, keeping empty segments (as `String.prototype.split`
does). -/
def splitOnSlash : List Char → List (List Char)
  | [] => [[]]
  | c :: cs =>
    let r := splitOnSlash cs
    if c == '/' then [] :: r
    else
      match r with
      | h :: t => (c :: h) :: t
      | [] => [[c]]

/-- JS `parts.join("/")`. -/
def joinSlash : List (List Char) → List Char
  | [] => []
  | [p] => p
  | p :: ps => p ++ '/' :: joinSlash ps

/-- ASCII lower-casing of one character (what JS `toLowerCase` does on the
ASCII inputs the handlers deal with). -/
def asciiToLower (c : Char) : Char :=
  if decide ('A' ≤ c) && decide (c ≤ 'Z') then Char.ofNat (c.toNat + 32) else c

/-- JS `s.toLowerCase()` restricted to ASCII. -/
def jsToLower (s : String) : String :=
  (s.data.map asciiToLower).asString

/-- JS `s.includes(sub)`: substring containment test. -/
def hasSubstr (s sub : String) : Bool :=
  (List.range (s.data.length + 1)).any
    (fun i => listStartsWith (s.data.drop i) sub.data)

/-- `patternsOverlap` from `src/handlers/reservation.ts`: strip glob
wildcard markers, declare overlap when one normalized pattern is a prefix
of the other, or the parent directories are in a prefix relationship, or
the raw patterns are textually identical. -/
def patternsOverlap (pattern1 pattern2 : String) : Bool :=
  let p1 := (replaceAll (replaceAll pattern1 "**/" "") "*" "").data
  let p2 := (replaceAll (replaceAll pattern2 "**/" "") "*" "").data
  if listStartsWith p1 p2 || listStartsWith p2 p1 then true
  else
    let dir1 := joinSlash ((splitOnSlash p1).dropLast)
    let dir2 := joinSlash ((splitOnSlash p2).dropLast)
    if !dir1.isEmpty && !dir2.isEmpty &&
        (listStartsWith dir1 dir2 || listStartsWith dir2 dir1) then true
    else pattern1 == pattern2

/-- Characters kept verbatim by `slugify` (`[a-z0-9]` after lower-casing). -/
def isSlugKeep (c : Char) : Bool :=
  (decide ('a' ≤ c) && decide (c ≤ 'z')) || (decide ('0' ≤ c) && decide (c ≤ '9'))

/-- Fuel-indexed collapse of every run of non-`[a-z0-9]` characters into a
single hyphen (JS `replace(/[^a-z0-9]+/g, "-")`). -/
def collapseRunsAux : Nat → List Char → List Char
  | 0, l => l
  | _ + 1, [] => []
  | fuel + 1, c :: cs =>
    if isSlugKeep c then c :: collapseRunsAux fuel cs
    else '-' :: collapseRunsAux fuel (cs.dropWhile (fun d => !isSlugKeep d))

/-- JS `replace(/^-+|-+$/g, "")`: strip leading and trailing hyphens. -/
def trimHyphens (l : List Char) : List Char :=
  ((l.dropWhile (· == '-')).reverse.dropWhile (· == '-')).reverse

/-- `slugify` from `src/utils/slug.ts`. -/
def slugify (input : String) : String :=
  let lowered := (jsToLower input).data
  (List.take 64 (trimHyphens (collapseRunsAux lowered.length lowered))).asString

/-- Wrap an integer to JS 32-bit two's-complement range (`| 0` / `<<`). -/
def toInt32 (x : Int) : Int :=
  (x + 2 ^ 31) % 2 ^ 32 - 2 ^ 31

/-- One step of `simpleHash` from `src/utils/slug.ts`:
`hash = (hash << 5) - hash + charCode; hash = hash & hash`. -/
def simpleHashStep (h : Int) (c : Char) : Int :=
  toInt32 (toInt32 (h * 32) - h + c.toNat)

/-- `simpleHash` from `src/utils/slug.ts`: 32-bit rolling hash rendered as
lowercase hex of its absolute value. -/
def simpleHash (str : String) : String :=
  (Nat.toDigits 16 (str.data.foldl simpleHashStep 0).natAbs).asString

/-- JS `parts.join("-")`. -/
def joinHyphen : List (List Char) → List Char
  | [] => []
  | [p] => p
  | p :: ps => p ++ '-' :: joinHyphen ps

/-- `projectSlug` from `src/utils/slug.ts`: last two path components plus
the first 8 hex digits of the hash, slugified. -/
def projectSlug (humanKey : String) : String :=
  let parts := (splitOnSlash humanKey.data).filter (fun p => !p.isEmpty)
  let relevant := joinHyphen (parts.drop (parts.length - 2))
  let hash := (simpleHash humanKey).data.take 8
  slugify ((relevant ++ '-' :: hash).asString)


/-- The adjective pool from `src/utils/names.ts`. -/
def ADJECTIVES : List String := [
  "Amber", "Azure", "Blue", "Bright", "Bronze", "Calm", "Clear", "Coral",
  "Crimson", "Crystal", "Cyber", "Dark", "Dawn", "Deep", "Desert", "Digital",
  "Dusk", "Electric", "Emerald", "Fire", "Forest", "Frost", "Ghost", "Golden",
  "Gray", "Green", "Hidden", "Ice", "Indigo", "Iron", "Ivory", "Jade",
  "Light", "Lunar", "Marble", "Midnight", "Misty", "Moon", "Neon", "Night",
  "Noble", "Ocean", "Onyx", "Orange", "Pale", "Pearl", "Pine", "Pink",
  "Platinum", "Purple", "Quiet", "Rapid", "Red", "River", "Rose", "Royal",
  "Ruby", "Rust", "Sacred", "Sage", "Sand", "Sapphire", "Scarlet", "Secret",
  "Shadow", "Silent", "Silver", "Sky", "Slate", "Snow", "Solar", "Spring",
  "Steel", "Stone", "Storm", "Summer", "Swift", "Thunder", "Tidal", "Twilight",
  "Velvet", "Violet", "Warm", "White", "Wild", "Winter", "Wise"]

/-- The noun pool from `src/utils/names.ts`. -/
def NOUNS : List String := [
  "Arrow", "Bay", "Bear", "Bird", "Blade", "Brook", "Canyon", "Castle",
  "Cave", "Cedar", "Cliff", "Cloud", "Cobra", "Cove", "Crane", "Creek",
  "Crown", "Dawn", "Deer", "Delta", "Dove", "Dragon", "Drift", "Dune",
  "Eagle", "Elm", "Falcon", "Fern", "Field", "Finch", "Flame", "Flash",
  "Flint", "Fox", "Frost", "Garden", "Gate", "Glacier", "Glen", "Grove",
  "Harbor", "Hawk", "Haven", "Heath", "Heron", "Hill", "Hollow", "Horn",
  "Isle", "Jade", "Jaguar", "Keep", "Lake", "Lark", "Leaf", "Lion",
  "Lodge", "Lynx", "Maple", "Marsh", "Mesa", "Mill", "Mist", "Moon",
  "Moss", "Mountain", "Oak", "Oasis", "Owl", "Palm", "Panther", "Pass",
  "Path", "Peak", "Petal", "Phoenix", "Pine", "Plain", "Pond", "Quail",
  "Raven", "Reef", "Ridge", "River", "Rock", "Rose", "Sage", "Sand",
  "Shade", "Shore", "Sparrow", "Spring", "Star", "Stone", "Storm", "Stream",
  "Summit", "Swan", "Thorn", "Thunder", "Tiger", "Tower", "Trail", "Tree",
  "Vale", "Valley", "Vine", "Vista", "Wave", "Willow", "Wind", "Wolf",
  "Wood"]

/-- `[A-Z]` test (the regex character class in `isValidName`). -/
def isUpperAZ (c : Char) : Bool := decide ('A' ≤ c) && decide (c ≤ 'Z')

/-- `[a-z]` test (the regex character class in `isValidName`). -/
def isLowerAZ (c : Char) : Bool := decide ('a' ≤ c) && decide (c ≤ 'z')

/-- `isValidName` from `src/utils/names.ts`: the name must match
`^([A-Z][a-z]+)([A-Z][a-z]+)$` and both captured words must come from the
adjective and noun pools. -/
def isValidName (name : String) : Bool :=
  match name.data with
  | [] => false
  | c0 :: rest =>
    if !isUpperAZ c0 then false
    else
      let l1 := rest.takeWhile isLowerAZ
      let rest1 := rest.dropWhile isLowerAZ
      if l1.isEmpty then false
      else
        match rest1 with
        | [] => false
        | c1 :: rest2 =>
          if !isUpperAZ c1 then false
          else
            let l2 := rest2.takeWhile isLowerAZ
            let rest3 := rest2.dropWhile isLowerAZ
            !l2.isEmpty && rest3.isEmpty &&
              ADJECTIVES.contains ((c0 :: l1).asString) &&
              NOUNS.contains ((c1 :: l2).asString)

/-- `generateName` from `src/utils/names.ts`. The pair `r` supplies the two
`Math.floor(Math.random() * arr.length)` draws; taking them modulo the pool
sizes ranges over exactly the values the JS code can draw. -/
def generateName (r : Nat × Nat) : String :=
  (ADJECTIVES.getD (r.1 % ADJECTIVES.length) "") ++ (NOUNS.getD (r.2 % NOUNS.length) "")

/-- The up-to-100-tries random-generation loop of `generateUniqueName`;
`rng i` is the pair of random draws consumed by try number `i`. -/
def tryRandomFrom (existing : List String) (rng : Nat → Nat × Nat) : Nat → Nat → Option String
  | _, 0 => none
  | i, fuel + 1 =>
    let name := generateName (rng i)
    if existing.contains name then tryRandomFrom existing rng (i + 1) fuel
    else some name

/-- The numeric-suffix fallback loop of `generateUniqueName`
(`while (existing.has(name + suffix)) ...`). The JS loop terminates only
with probability 1; the fuel bounds the embedded recursion, and the
fuel-exhausted branch returns the candidate the loop was about to test. -/
def suffixSearch (existing : List String) (rng : Nat → Nat × Nat) : Nat → String → Nat → Nat → String
  | _, name, suffix, 0 => name ++ toString suffix
  | i, name, suffix, fuel + 1 =>
    if existing.contains (name ++ toString suffix) then
      if suffix + 1 > 100 then suffixSearch existing rng (i + 1) (generateName (rng i)) 1 fuel
      else suffixSearch existing rng i name (suffix + 1) fuel
    else name ++ toString suffix

/-- `generateUniqueName` from `src/utils/names.ts`: use a valid untaken
hint verbatim, otherwise draw up to 100 random names, otherwise fall back
to numeric suffixes. -/
def generateUniqueName (existing : List String) (hint : Option String) (rng : Nat → Nat × Nat) : String :=
  let fromRandom :=
    match tryRandomFrom existing rng 0 100 with
    | some n => n
    | none => suffixSearch existing rng 101 (generateName (rng 100)) 1 1000000
  match hint with
  | some h => if isValidName h && !(existing.contains h) then h else fromRandom
  | none => fromRandom


/-! ## Data model (`src/types.ts`, schema in `src/db.ts`) -/

/-- A `projects` row. -/
structure Project where
  id : Nat
  slug : String
  human_key : String
  created_at : Nat
deriving DecidableEq

/-- An `agents` row. -/
structure Agent where
  id : Nat
  project_id : Nat
  name : String
  program : String
  model : String
  task_description : String
  inception_ts : Nat
  last_active_ts : Nat
deriving DecidableEq

/-- A `messages` row (`ack_required` is the 0/1 SQLite boolean). -/
structure Message where
  id : Nat
  project_id : Nat
  sender_id : Nat
  thread_id : Option String
  subject : String
  body_md : String
  to_agents : String
  cc_agents : String
  importance : String
  ack_required : Bool
  created_ts : Nat
deriving DecidableEq

/-- A `message_recipients` row, primary key `(message_id, agent_id)`. -/
structure MessageRecipient where
  message_id : Nat
  agent_id : Nat
  kind : String
  read_ts : Option Nat
  ack_ts : Option Nat
deriving DecidableEq

/-- A `file_reservations` row. -/
structure FileReservation where
  id : Nat
  project_id : Nat
  agent_id : Nat
  path_pattern : String
  exclusive : Bool
  reason : String
  created_ts : Nat
  expires_ts : Nat
  released_ts : Option Nat
deriving DecidableEq

/-- The structured failure value (`ApiError` in `src/types.ts`). -/
structure ApiError where
  type : String
  message : String
  recoverable : Bool
  data : Option (List String) := none
deriving DecidableEq

/-- The relational store: one list per table, in rowid order. -/
structure Store where
  projects : List Project
  agents : List Agent
  messages : List Message
  message_recipients : List MessageRecipient
  file_reservations : List FileReservation
deriving DecidableEq

deriving instance DecidableEq for Except

/-- SQLite `INTEGER PRIMARY KEY` assignment: one more than the largest
rowid in use. -/
def freshId (ids : List Nat) : Nat :=
  ids.foldr max 0 + 1

/-! ## Project handlers (`src/handlers/project.ts`) -/

/-- `getProject`: `SELECT * FROM projects WHERE slug = ? OR human_key = ?`,
with up to 3 case-insensitive substring suggestions on a miss. -/
def getProject (s : Store) (slugOrKey : String) : Except ApiError Project :=
  match s.projects.find? (fun p => p.slug == slugOrKey || p.human_key == slugOrKey) with
  | some p => .ok p
  | none =>
    let suggestions :=
      ((s.projects.filter (fun p =>
          hasSubstr p.slug (jsToLower slugOrKey) || hasSubstr p.human_key slugOrKey)).take 3).map
        (fun p => p.slug)
    .error { type := "PROJECT_NOT_FOUND", message := "Project not found: " ++ slugOrKey,
             recoverable := true,
             data := if suggestions.length > 0 then some suggestions else none }

/-- The insert branch of `ensureProject` (everything after the existence
check, lines 236-262 of the project handler): `INSERT INTO projects`
subject to the `UNIQUE` constraints on `slug` and `human_key`, then
re-select by slug.  A constraint violation is caught and surfaced as
`PROJECT_CREATE_FAILED`. -/
def ensureProjectInsertPhase (s : Store) (humanKey slug : String) (now : Nat) :
    Except ApiError Project × Store :=
  if s.projects.any (fun p => p.slug == slug || p.human_key == humanKey) then
    (.error { type := "PROJECT_CREATE_FAILED", message := "UNIQUE constraint failed",
              recoverable := false }, s)
  else
    let row : Project := { id := freshId (s.projects.map (fun p => p.id)),
                           slug := slug, human_key := humanKey, created_at := now }
    let s' := { s with projects := s.projects ++ [row] }
    match s'.projects.find? (fun p => p.slug == slug) with
    | some created => (.ok created, s')
    | none => (.error { type := "PROJECT_CREATE_FAILED", message := "Failed to create project",
                        recoverable := true }, s')

/-- `ensureProject`: look up by `human_key` or derived slug first; insert
when absent. -/
def ensureProject (s : Store) (humanKey : String) (now : Nat) :
    Except ApiError Project × Store :=
  let slug := projectSlug humanKey
  match s.projects.find? (fun p => p.human_key == humanKey || p.slug == slug) with
  | some existing => (.ok existing, s)
  | none => ensureProjectInsertPhase s humanKey slug now

/-! ## Agent handlers (`src/handlers/agent.ts`) -/

/-- `UPDATE agents SET last_active_ts = datetime('now') WHERE id = ?`. -/
def touchAgent (agents : List Agent) (id now : Nat) : List Agent :=
  agents.map (fun a => if a.id == id then { a with last_active_ts := now } else a)

/-- `getAgent`: resolve the project, look the agent up by name, and
refresh its `last_active_ts` on success (the returned row is the one read
before the refresh, as in the code). -/
def getAgent (s : Store) (slug name : String) (now : Nat) :
    Except ApiError Agent × Store :=
  match getProject s slug with
  | .error e => (.error e, s)
  | .ok project =>
    match s.agents.find? (fun a => a.project_id == project.id && a.name == name) with
    | none =>
      let suggestions :=
        (((s.agents.filter (fun a => a.project_id == project.id)).filter
            (fun a => hasSubstr (jsToLower a.name) (jsToLower name))).take 3).map
          (fun a => a.name)
      (.error { type := "AGENT_NOT_FOUND", message := "Agent not found: " ++ name,
                recoverable := true,
                data := if suggestions.length > 0 then some suggestions else none }, s)
    | some agent =>
      (.ok agent, { s with agents := touchAgent s.agents agent.id now })

/-- Input of `registerAgent`. -/
structure RegisterAgentInput where
  projectSlug : String
  name : Option String
  program : String
  model : String
  taskDescription : Option String
deriving DecidableEq

/-- `registerAgent`: resolve or generate a name; update the profile when
an agent with that name already exists in the project, insert otherwise.
`rng` supplies the `Math.random` draws of the name generator.  The
`INSERT` is subject to `UNIQUE(project_id, name)`. -/
def registerAgent (s : Store) (input : RegisterAgentInput) (now : Nat)
    (rng : Nat → Nat × Nat) : Except ApiError Agent × Store :=
  match getProject s input.projectSlug with
  | .error e => (.error e, s)
  | .ok project =>
    let existingNames := (s.agents.filter (fun a => a.project_id == project.id)).map (fun a => a.name)
    let name :=
      match input.name with
      | some n => if isValidName n then n else generateUniqueName existingNames (some n) rng
      | none => generateUniqueName existingNames none rng
    match s.agents.find? (fun a => a.project_id == project.id && a.name == name) with
    | some existing =>
      let agents' := s.agents.map (fun a =>
        if a.id == existing.id then
          { a with program := input.program, model := input.model,
                   task_description := input.taskDescription.getD "", last_active_ts := now }
        else a)
      let s' := { s with agents := agents' }
      match agents'.find? (fun a => a.id == existing.id) with
      | some updated => (.ok updated, s')
      | none =>
        -- models the `updated!` non-null assertion; unreachable
        (.error { type := "AGENT_CREATE_FAILED", message := "Failed to update agent",
                  recoverable := false }, s')
    | none =>
      if s.agents.any (fun a => a.project_id == project.id && a.name == name) then
        (.error { type := "AGENT_CREATE_FAILED", message := "UNIQUE constraint failed",
                  recoverable := false }, s)
      else
        let row : Agent := { id := freshId (s.agents.map (fun a => a.id)),
                             project_id := project.id, name := name,
                             program := input.program, model := input.model,
                             task_description := input.taskDescription.getD "",
                             inception_ts := now, last_active_ts := now }
        let s' := { s with agents := s.agents ++ [row] }
        match s'.agents.find? (fun a => a.project_id == project.id && a.name == name) with
        | some created => (.ok created, s')
        | none => (.error { type := "AGENT_CREATE_FAILED", message := "Failed to create agent",
                            recoverable := true }, s')


/-! ## Message handlers (`src/handlers/message.ts`) -/

/-- Input of `sendMessage` (`cc` defaults to `[]`, `ackRequired` to
`false`, `importance` to `"normal"`, matching the `??` defaults). -/
structure SendMessageInput where
  projectSlug : String
  sender : String
  -- `to` is a reserved token in this Lean setup, hence the field name
  toRecipients : List String
  cc : List String
  subject : String
  bodyMd : String
  threadId : Option String
  importance : Option String
  ackRequired : Bool
deriving DecidableEq

/-- One element of the `recipientAgents` array built by `sendMessage`. -/
structure RecipientEntry where
  agentId : Nat
  agentName : String
  kind : String
deriving DecidableEq

/-- The `for (const recipientName of input.to)` loop: a name that
case-insensitively equals `"all"` expands to every other agent of the
project read from the current store; any other name goes through
`getAgent` (whose `last_active_ts` refresh is threaded). -/
def resolveToList (slug : String) (project : Project) (sender : Agent) (now : Nat) :
    Store → List String → Except ApiError (List RecipientEntry) × Store
  | s, [] => (.ok [], s)
  | s, n :: rest =>
    if jsToLower n == "all" then
      let others := (s.agents.filter (fun a => a.project_id == project.id && a.id != sender.id)).map
        (fun a => { agentId := a.id, agentName := a.name, kind := "to" : RecipientEntry })
      let r := resolveToList slug project sender now s rest
      (r.1.map (fun tail => others ++ tail), r.2)
    else
      match getAgent s slug n now with
      | (.error e, s') => (.error e, s')
      | (.ok a, s') =>
        let r := resolveToList slug project sender now s' rest
        (r.1.map (fun tail =>
          ({ agentId := a.id, agentName := a.name, kind := "to" } : RecipientEntry) :: tail), r.2)

/-- The `for (const ccName of input.cc ?? [])` loop: every entry resolves
through `getAgent`, with no broadcast special case. -/
def resolveCcList (slug : String) (now : Nat) :
    Store → List String → Except ApiError (List RecipientEntry) × Store
  | s, [] => (.ok [], s)
  | s, n :: rest =>
    match getAgent s slug n now with
    | (.error e, s') => (.error e, s')
    | (.ok a, s') =>
      let r := resolveCcList slug now s' rest
      (r.1.map (fun tail =>
        ({ agentId := a.id, agentName := a.name, kind := "cc" } : RecipientEntry) :: tail), r.2)

/-- JS `arr.join(",")` on names. -/
def joinComma : List String → String
  | [] => ""
  | [n] => n
  | n :: ns => n ++ "," ++ joinComma ns

/-- The `CHECK(importance IN ('low','normal','high','urgent'))` schema
constraint. -/
def importanceValid (imp : String) : Bool :=
  imp == "low" || imp == "normal" || imp == "high" || imp == "urgent"

/-- The `CHECK(kind IN ('to','cc','bcc'))` schema constraint. -/
def kindValid (k : String) : Bool :=
  k == "to" || k == "cc" || k == "bcc"

/-- The `message_recipients` row inserted for one resolved recipient. -/
def recipientRow (mid : Nat) (e : RecipientEntry) : MessageRecipient :=
  { message_id := mid, agent_id := e.agentId, kind := e.kind, read_ts := none, ack_ts := none }

/-- The recipient-insertion loop of `sendMessage`: each `INSERT INTO
message_recipients` is an independent statement (no transaction), checked
against the `(message_id, agent_id)` primary key and the `kind` CHECK
constraint.  On a violation the loop stops (the exception is caught by the
surrounding try), keeping the rows inserted so far. -/
def insertRecipients (mid : Nat) : List RecipientEntry → List MessageRecipient →
    Bool × List MessageRecipient
  | [], rows => (true, rows)
  | e :: rest, rows =>
    if rows.any (fun r => r.message_id == mid && r.agent_id == e.agentId) || !kindValid e.kind then
      (false, rows)
    else
      insertRecipients mid rest (rows ++ [recipientRow mid e])

/-- The `MESSAGE_SEND_FAILED` error produced by the catch block. -/
def sendFailedErr : ApiError :=
  { type := "MESSAGE_SEND_FAILED", message := "Unknown error", recoverable := false }

/-- `sendMessage` from `src/handlers/message.ts`: resolve project and
sender, expand/resolve recipients (aborting on any unresolved name),
reject an empty recipient set, insert the message row and then one
recipient row per resolved recipient. -/
def sendMessage (s : Store) (inp : SendMessageInput) (now : Nat) :
    Except ApiError Message × Store :=
  match getProject s inp.projectSlug with
  | .error e => (.error e, s)
  | .ok project =>
  match getAgent s inp.projectSlug inp.sender now with
  | (.error e, s1) => (.error e, s1)
  | (.ok sender, s1) =>
  match resolveToList inp.projectSlug project sender now s1 inp.toRecipients with
  | (.error e, s2) => (.error e, s2)
  | (.ok toEntries, s2) =>
  match resolveCcList inp.projectSlug now s2 inp.cc with
  | (.error e, s3) => (.error e, s3)
  | (.ok ccEntries, s3) =>
  let recipientAgents := toEntries ++ ccEntries
  if recipientAgents.length == 0 then
    (.error { type := "NO_RECIPIENTS", message := "No recipients specified or found",
              recoverable := true }, s3)
  else
    let toAgents := joinComma ((recipientAgents.filter (fun r => r.kind == "to")).map (fun r => r.agentName))
    let ccAgents := joinComma ((recipientAgents.filter (fun r => r.kind == "cc")).map (fun r => r.agentName))
    let imp := inp.importance.getD "normal"
    if !importanceValid imp then (.error sendFailedErr, s3)
    else
      let mid := freshId (s3.messages.map (fun m => m.id))
      let msg : Message := { id := mid, project_id := project.id, sender_id := sender.id,
                             thread_id := inp.threadId, subject := inp.subject,
                             body_md := inp.bodyMd, to_agents := toAgents, cc_agents := ccAgents,
                             importance := imp, ack_required := inp.ackRequired, created_ts := now }
      let s4 := { s3 with messages := s3.messages ++ [msg] }
      match insertRecipients mid recipientAgents s4.message_recipients with
      | (false, rows) => (.error sendFailedErr, { s4 with message_recipients := rows })
      | (true, rows) =>
        let s5 := { s4 with message_recipients := rows }
        match s5.messages.find? (fun m => m.id == mid) with
        | some m => (.ok m, s5)
        | none =>
          -- models the `message!` non-null assertion; unreachable
          (.error sendFailedErr, s5)

/-- Result of `markRead`. -/
structure ReadResult where
  read : Bool
  readAt : Nat
deriving DecidableEq

/-- The `UPDATE message_recipients SET read_ts = ? WHERE message_id = ?
AND agent_id = ?` statement of `markRead`. -/
def readStamp (messageId aid now : Nat) (rows : List MessageRecipient) : List MessageRecipient :=
  rows.map (fun (r : MessageRecipient) =>
    if r.message_id == messageId && r.agent_id == aid then { r with read_ts := some now }
    else r)

/-- `markRead` from `src/handlers/message.ts`: requires a recipient row;
returns the stored `read_ts` unchanged when already set, otherwise stamps
it with the current time. -/
def markRead (s : Store) (slug name : String) (messageId now : Nat) :
    Except ApiError ReadResult × Store :=
  match getAgent s slug name now with
  | (.error e, s1) => (.error e, s1)
  | (.ok agent, s1) =>
    match s1.message_recipients.find? (fun r => r.message_id == messageId && r.agent_id == agent.id) with
    | none =>
      (.error { type := "NOT_RECIPIENT", message := "Agent is not a recipient of this message",
                recoverable := true }, s1)
    | some recipient =>
      match recipient.read_ts with
      | some t => (.ok { read := true, readAt := t }, s1)
      | none =>
        let rows := readStamp messageId agent.id now s1.message_recipients
        let s2 := { s1 with message_recipients := rows }
        (.ok { read := true, readAt := now }, s2)

/-- Result of `acknowledge`. -/
structure AckResult where
  acknowledged : Bool
  ackAt : Nat
  readAt : Nat
deriving DecidableEq

/-- The `UPDATE message_recipients SET ack_ts = ?, read_ts =
COALESCE(read_ts, ?) WHERE message_id = ? AND agent_id = ?` statement of
`acknowledge`. -/
def ackStamp (messageId aid now : Nat) (rows : List MessageRecipient) : List MessageRecipient :=
  rows.map (fun (r : MessageRecipient) =>
    if r.message_id == messageId && r.agent_id == aid then
      { r with ack_ts := some now, read_ts := some (r.read_ts.getD now) }
    else r)

/-- `acknowledge` from `src/handlers/message.ts`: requires a recipient
row; sets `ack_ts = now` unconditionally and `read_ts = COALESCE(read_ts,
now)`, then re-reads the row (its two timestamps are non-null after the
update, which the code asserts with `!`; `getD 0` models those
assertions). -/
def acknowledge (s : Store) (slug name : String) (messageId now : Nat) :
    Except ApiError AckResult × Store :=
  match getAgent s slug name now with
  | (.error e, s1) => (.error e, s1)
  | (.ok agent, s1) =>
    match s1.message_recipients.find? (fun r => r.message_id == messageId && r.agent_id == agent.id) with
    | none =>
      (.error { type := "NOT_RECIPIENT", message := "Agent is not a recipient of this message",
                recoverable := true }, s1)
    | some _ =>
      let rows := ackStamp messageId agent.id now s1.message_recipients
      let s2 := { s1 with message_recipients := rows }
      match s2.message_recipients.find? (fun r => r.message_id == messageId && r.agent_id == agent.id) with
      | some updated =>
        (.ok { acknowledged := true, ackAt := updated.ack_ts.getD 0,
               readAt := updated.read_ts.getD 0 }, s2)
      | none =>
        (.error { type := "NOT_RECIPIENT", message := "Agent is not a recipient of this message",
                  recoverable := true }, s2)

/-! ## Reservation handlers (`src/handlers/reservation.ts`) -/

/-- Input of `createReservation`. -/
structure CreateReservationInput where
  projectSlug : String
  agentName : String
  pathPattern : String
  ttlSeconds : Option Nat
  exclusive : Option Bool
  reason : Option String
deriving DecidableEq

/-- A reservation row joined with its owner's name
(`SELECT fr.*, a.name as agent_name ... JOIN agents a ON fr.agent_id = a.id`). -/
structure ReservationWithAgent where
  fr : FileReservation
  agent_name : String
deriving DecidableEq

/-- A `conflicts` array entry of `createReservation`. -/
structure ReservationConflict where
  id : Nat
  agent_name : String
  path_pattern : String
  expires_ts : Nat
  reason : String
deriving DecidableEq

/-- Result of `createReservation`. -/
structure ReservationResult where
  granted : List FileReservation
  conflicts : List ReservationConflict
deriving DecidableEq

/-- UTC day index of an instant; Unix time ignores leap seconds, so the
date rendered by both `toISOString()` and `datetime('now')` rolls over
exactly at multiples of 86400 seconds. -/
def utcDay (t : Nat) : Nat := t / 86400

/-- The SQL condition `expires_ts > datetime('now')` as the program
actually evaluates it.  `expires_ts` is only ever written by
`createReservation` via `toISOString()` (`YYYY-MM-DDTHH:MM:SS.sssZ`) while
`datetime('now')` renders `YYYY-MM-DD HH:MM:SS`; SQLite compares TEXT by
memcmp, the first ten characters are the zero-padded dates, and when the
dates coincide the eleventh character decides with `'T' > ' '` — so the
ISO value compares greater exactly when its UTC date is on or after the
current one, regardless of the time of day. -/
def isoAfterSqlNow (expires now : Nat) : Bool :=
  decide (utcDay now ≤ utcDay expires)

/-- The active-exclusive-reservations query of `createReservation`:
`WHERE project_id = ? AND released_ts IS NULL AND expires_ts >
datetime('now') AND exclusive = 1 AND agent_id != ?`, joined with the
owner's name.  The expiry comparison is the mixed-format string
comparison `isoAfterSqlNow`, which admits every chronologically active
row and additionally rows expired earlier on the same UTC day. -/
def activeExclusiveOthers (s : Store) (pid aid now : Nat) : List ReservationWithAgent :=
  (s.file_reservations.filter (fun fr =>
      fr.project_id == pid && fr.released_ts == none && isoAfterSqlNow fr.expires_ts now &&
      fr.exclusive && fr.agent_id != aid)).flatMap
    (fun fr => (s.agents.filter (fun a => a.id == fr.agent_id)).map
      (fun a => { fr := fr, agent_name := a.name }))

/-- The conflict-collection loop of `createReservation`: keep the joined
rows owned by another agent whose pattern overlaps the request. -/
def conflictsFor (s : Store) (pid : Nat) (agent : Agent) (pathPattern : String) (now : Nat) :
    List ReservationConflict :=
  ((activeExclusiveOthers s pid agent.id now).filter (fun w =>
      w.fr.agent_id != agent.id && patternsOverlap pathPattern w.fr.path_pattern)).map
    (fun w => { id := w.fr.id, agent_name := w.agent_name, path_pattern := w.fr.path_pattern,
                expires_ts := w.fr.expires_ts, reason := w.fr.reason })

/-- `createReservation` from `src/handlers/reservation.ts`: resolve
project and agent, compute conflicts, and insert the reservation row
unconditionally with `expires_ts = now + ttlSeconds` (default 3600). -/
def createReservation (s : Store) (inp : CreateReservationInput) (now : Nat) :
    Except ApiError ReservationResult × Store :=
  match getProject s inp.projectSlug with
  | .error e => (.error e, s)
  | .ok project =>
  match getAgent s inp.projectSlug inp.agentName now with
  | (.error e, s1) => (.error e, s1)
  | (.ok agent, s1) =>
    let ttlSeconds := inp.ttlSeconds.getD 3600
    let exclusive := inp.exclusive.getD true
    let conflicts := conflictsFor s1 project.id agent inp.pathPattern now
    let rid := freshId (s1.file_reservations.map (fun fr => fr.id))
    let row : FileReservation := { id := rid, project_id := project.id, agent_id := agent.id,
                                   path_pattern := inp.pathPattern, exclusive := exclusive,
                                   reason := inp.reason.getD "", created_ts := now,
                                   expires_ts := now + ttlSeconds, released_ts := none }
    let s2 := { s1 with file_reservations := s1.file_reservations ++ [row] }
    match s2.file_reservations.find? (fun fr => fr.id == rid) with
    | some r => (.ok { granted := [r], conflicts := conflicts }, s2)
    | none =>
      -- models the `reservation!` non-null assertion; unreachable
      (.error { type := "RESERVATION_CREATE_FAILED", message := "Unknown error",
                recoverable := false }, s2)

/-- Input of `releaseReservations`. -/
structure ReleaseReservationInput where
  projectSlug : String
  agentName : String
  pattern : Option String
  all : Bool
deriving DecidableEq

/-- Result of `releaseReservations`. -/
structure ReleaseResult where
  released : Nat
  releasedAt : Nat
deriving DecidableEq

/-- `releaseReservations` from `src/handlers/reservation.ts`: with
`all=true`, stamp `released_ts = now` on every unreleased reservation of
the agent in the project (`WHERE ... released_ts IS NULL` — no expiry
check); with a non-empty pattern, additionally require exact
`path_pattern` equality; otherwise reject as invalid input. -/
def releaseReservations (s : Store) (inp : ReleaseReservationInput) (now : Nat) :
    Except ApiError ReleaseResult × Store :=
  match getProject s inp.projectSlug with
  | .error e => (.error e, s)
  | .ok project =>
  match getAgent s inp.projectSlug inp.agentName now with
  | (.error e, s1) => (.error e, s1)
  | (.ok agent, s1) =>
    if inp.all then
      let pred := fun (fr : FileReservation) =>
        fr.project_id == project.id && fr.agent_id == agent.id && fr.released_ts == none
      let changes := (s1.file_reservations.filter pred).length
      let s2 := { s1 with file_reservations := s1.file_reservations.map (fun fr =>
        if pred fr then { fr with released_ts := some now } else fr) }
      (.ok { released := changes, releasedAt := now }, s2)
    else
      match inp.pattern with
      | some p =>
        if p == "" then
          (.error { type := "INVALID_INPUT", message := "Must specify pattern or all=true",
                    recoverable := true }, s1)
        else
          let pred := fun (fr : FileReservation) =>
            fr.project_id == project.id && fr.agent_id == agent.id &&
            fr.path_pattern == p && fr.released_ts == none
          let changes := (s1.file_reservations.filter pred).length
          let s2 := { s1 with file_reservations := s1.file_reservations.map (fun fr =>
            if pred fr then { fr with released_ts := some now } else fr) }
          (.ok { released := changes, releasedAt := now }, s2)
      | none =>
        (.error { type := "INVALID_INPUT", message := "Must specify pattern or all=true",
                  recoverable := true }, s1)

/-- Query of `listReservations` (`query.active` truthiness). -/
structure ListReservationsQuery where
  projectSlug : String
  active : Bool
deriving DecidableEq

/-- Descending insertion step by `created_ts` (for `ORDER BY created_ts
DESC`; SQLite specifies no tie order, this sort is stable). -/
def insertDesc (w : ReservationWithAgent) : List ReservationWithAgent → List ReservationWithAgent
  | [] => [w]
  | x :: xs =>
    if decide (x.fr.created_ts ≤ w.fr.created_ts) then w :: x :: xs
    else x :: insertDesc w xs

/-- `ORDER BY created_ts DESC` as a structurally recursive sort. -/
def sortByCreatedDesc (l : List ReservationWithAgent) : List ReservationWithAgent :=
  l.foldr insertDesc []

theorem mem_insertDesc {y w : ReservationWithAgent} :
    ∀ {l : List ReservationWithAgent}, y ∈ insertDesc w l ↔ y = w ∨ y ∈ l := by
  intro l
  induction l with
  | nil => simp [insertDesc]
  | cons x xs ih =>
    unfold insertDesc
    split
    · simp
    · rw [List.mem_cons, ih, List.mem_cons]
      tauto

theorem mem_sortByCreatedDesc {y : ReservationWithAgent} :
    ∀ {l : List ReservationWithAgent}, y ∈ sortByCreatedDesc l ↔ y ∈ l := by
  intro l
  induction l with
  | nil => simp [sortByCreatedDesc]
  | cons x xs ih =>
    unfold sortByCreatedDesc at ih ⊢
    rw [List.foldr_cons, mem_insertDesc, ih, List.mem_cons]

/-- `listReservations` from `src/handlers/reservation.ts`: all
reservations of the project joined with owner names, restricted to
`released_ts IS NULL AND expires_ts > datetime('now')` when `active` is
set, ordered by `created_ts DESC`.  The expiry comparison is the
mixed-format string comparison `isoAfterSqlNow`: a TTL-expired row keeps
passing the filter until the UTC date rolls over. -/
def listReservations (s : Store) (q : ListReservationsQuery) (now : Nat) :
    Except ApiError (List ReservationWithAgent) :=
  match getProject s q.projectSlug with
  | .error e => .error e
  | .ok project =>
    let rows := (s.file_reservations.filter (fun fr =>
        fr.project_id == project.id &&
        (!q.active || (fr.released_ts == none && isoAfterSqlNow fr.expires_ts now)))).flatMap
      (fun fr => (s.agents.filter (fun a => a.id == fr.agent_id)).map
        (fun a => { fr := fr, agent_name := a.name : ReservationWithAgent }))
    .ok (sortByCreatedDesc rows)


/-! ## General lemmas about the embedded store operations -/

theorem le_foldr_max {l : List Nat} {x : Nat} (h : x ∈ l) : x ≤ l.foldr max 0 := by
  induction l with
  | nil => cases h
  | cons y ys ih =>
    rcases List.mem_cons.mp h with rfl | hmem
    · exact Nat.le_max_left _ _
    · exact Nat.le_trans (ih hmem) (Nat.le_max_right _ _)

theorem mem_lt_freshId {l : List Nat} {x : Nat} (h : x ∈ l) : x < freshId l :=
  Nat.lt_succ_of_le (le_foldr_max h)

theorem find?_append_last {α : Type} {l : List α} {p : α → Bool}
    (hl : ∀ x ∈ l, p x = false) {y : α} (hy : p y = true) :
    (l ++ [y]).find? p = some y := by
  induction l with
  | nil => simp [List.find?, hy]
  | cons a as ih =>
    have ha : p a = false := hl a (List.mem_cons_self a as)
    simp only [List.cons_append, List.find?, ha]
    exact ih (fun x hx => hl x (List.mem_cons_of_mem a hx))

theorem find?_map_of_pred_inv {α : Type} {f : α → α} {p : α → Bool}
    (hp : ∀ x, p (f x) = p x) (l : List α) :
    (l.map f).find? p = (l.find? p).map f := by
  induction l with
  | nil => rfl
  | cons a as ih =>
    simp only [List.map_cons, List.find?, hp a]
    cases hpa : p a
    · exact ih
    · rfl

theorem filter_map_of_pred_inv {α : Type} {f : α → α} {p : α → Bool}
    (hp : ∀ x, p (f x) = p x) (l : List α) :
    (l.map f).filter p = (l.filter p).map f := by
  induction l with
  | nil => rfl
  | cons a as ih =>
    simp only [List.map_cons, List.filter, hp a]
    cases hpa : p a
    · exact ih
    · simp [ih]

theorem filter_of_map_inv {α : Type} {f : α → α} {p : α → Bool}
    (hp : ∀ x, p (f x) = p x) (hid : ∀ x, p x = true → f x = x) (l : List α) :
    (l.map f).filter p = l.filter p := by
  rw [filter_map_of_pred_inv hp]
  calc (l.filter p).map f = (l.filter p).map id :=
        List.map_congr_left (fun x hx => hid x (List.mem_filter.mp hx).2)
    _ = l.filter p := List.map_id _

/-- The identity of an agent row as far as lookups are concerned. -/
def agentKey (a : Agent) : Nat × Nat × String :=
  (a.id, a.project_id, a.name)

theorem touchAgent_keys (l : List Agent) (i t : Nat) :
    (touchAgent l i t).map agentKey = l.map agentKey := by
  unfold touchAgent
  rw [List.map_map]
  apply List.map_congr_left
  intro a _
  show agentKey (if a.id == i then { a with last_active_ts := t } else a) = agentKey a
  split <;> rfl

theorem getProject_congr {s s' : Store} (h : s.projects = s'.projects) (k : String) :
    getProject s k = getProject s' k := by
  unfold getProject
  rw [h]

/-- Whether `getAgent` succeeds, as a function of the lookup keys only. -/
def agentResolvable (s : Store) (slug n : String) : Bool :=
  match getProject s slug with
  | .error _ => false
  | .ok p => s.agents.any (fun a => a.project_id == p.id && a.name == n)

theorem any_key_pred (l : List Agent) (pid : Nat) (n : String) :
    l.any (fun a => a.project_id == pid && a.name == n) =
      (l.map agentKey).any (fun k => k.2.1 == pid && k.2.2 == n) := by
  induction l with
  | nil => rfl
  | cons a as ih => simp only [List.map_cons, List.any_cons, ih]; rfl

theorem agentResolvable_congr {s s' : Store} (hp : s.projects = s'.projects)
    (ha : s.agents.map agentKey = s'.agents.map agentKey) (slug n : String) :
    agentResolvable s slug n = agentResolvable s' slug n := by
  unfold agentResolvable
  rw [getProject_congr hp]
  cases getProject s' slug with
  | error e => rfl
  | ok p =>
    dsimp only
    rw [any_key_pred, any_key_pred, ha]

theorem getAgent_err_of_not_resolvable {s : Store} {slug n : String} (t : Nat)
    (h : agentResolvable s slug n = false) :
    ∃ e, getAgent s slug n t = (.error e, s) := by
  unfold agentResolvable at h
  unfold getAgent
  cases hp : getProject s slug with
  | error e => exact ⟨e, rfl⟩
  | ok p =>
    rw [hp] at h
    dsimp only at h ⊢
    cases hf : s.agents.find? (fun a => a.project_id == p.id && a.name == n) with
    | some a =>
      have hpa := List.find?_some hf
      have hmem := List.mem_of_find?_eq_some hf
      have hany : s.agents.any (fun a => a.project_id == p.id && a.name == n) = true :=
        List.any_eq_true.mpr ⟨a, hmem, hpa⟩
      rw [hany] at h
      cases h
    | none => exact ⟨_, rfl⟩

theorem getAgent_ok_of_resolvable {s : Store} {slug n : String} (t : Nat)
    (h : agentResolvable s slug n = true) :
    ∃ a, getAgent s slug n t =
      (.ok a, { s with agents := touchAgent s.agents a.id t }) := by
  unfold agentResolvable at h
  unfold getAgent
  cases hp : getProject s slug with
  | error e => rw [hp] at h; cases h
  | ok p =>
    rw [hp] at h
    dsimp only at h ⊢
    cases hf : s.agents.find? (fun a => a.project_id == p.id && a.name == n) with
    | some a => exact ⟨a, rfl⟩
    | none =>
      rw [List.find?_eq_none] at hf
      rw [List.any_eq_true] at h
      obtain ⟨a, hmem, hpred⟩ := h
      exact absurd hpred (by simpa using hf a hmem)

theorem getAgent_ok_parts {s s' : Store} {slug n : String} {t : Nat} {a : Agent}
    (h : getAgent s slug n t = (.ok a, s')) :
    s' = { s with agents := touchAgent s.agents a.id t } ∧
    ∃ p, getProject s slug = .ok p ∧
      s.agents.find? (fun x => x.project_id == p.id && x.name == n) = some a := by
  unfold getAgent at h
  cases hp : getProject s slug with
  | error e => rw [hp] at h; cases h
  | ok p =>
    rw [hp] at h
    dsimp only at h
    cases hf : s.agents.find? (fun x => x.project_id == p.id && x.name == n) with
    | none => rw [hf] at h; cases h
    | some b =>
      rw [hf] at h
      dsimp only at h
      have h1 : Except.ok (ε := ApiError) b = Except.ok a := congrArg Prod.fst h
      have h2 : ({ s with agents := touchAgent s.agents b.id t } : Store) = s' :=
        congrArg Prod.snd h
      injection h1 with hb
      subst hb
      exact ⟨h2.symm, p, rfl, hf⟩

theorem getAgent_snd_shape (s : Store) (slug n : String) (t : Nat) :
    ((getAgent s slug n t).2.projects = s.projects ∧
     (getAgent s slug n t).2.messages = s.messages ∧
     (getAgent s slug n t).2.message_recipients = s.message_recipients ∧
     (getAgent s slug n t).2.file_reservations = s.file_reservations) ∧
    (getAgent s slug n t).2.agents.map agentKey = s.agents.map agentKey := by
  unfold getAgent
  cases hp : getProject s slug with
  | error e => exact ⟨⟨rfl, rfl, rfl, rfl⟩, rfl⟩
  | ok p =>
    dsimp only
    cases hf : s.agents.find? (fun x => x.project_id == p.id && x.name == n) with
    | none => exact ⟨⟨rfl, rfl, rfl, rfl⟩, rfl⟩
    | some a => exact ⟨⟨rfl, rfl, rfl, rfl⟩, touchAgent_keys _ _ _⟩


/-- The parts of a store that agent-resolution side effects never change
(everything except the non-key agent fields). -/
def sameShape (s s' : Store) : Prop :=
  s'.projects = s.projects ∧ s'.messages = s.messages ∧
  s'.message_recipients = s.message_recipients ∧
  s'.file_reservations = s.file_reservations ∧
  s'.agents.map agentKey = s.agents.map agentKey

theorem sameShape_refl (s : Store) : sameShape s s :=
  ⟨rfl, rfl, rfl, rfl, rfl⟩

theorem sameShape_trans {s1 s2 s3 : Store} (h1 : sameShape s1 s2) (h2 : sameShape s2 s3) :
    sameShape s1 s3 :=
  ⟨h2.1.trans h1.1, h2.2.1.trans h1.2.1, h2.2.2.1.trans h1.2.2.1,
   h2.2.2.2.1.trans h1.2.2.2.1, h2.2.2.2.2.trans h1.2.2.2.2⟩

theorem getAgent_sameShape (s : Store) (slug n : String) (t : Nat) :
    sameShape s (getAgent s slug n t).2 := by
  obtain ⟨⟨h1, h2, h3, h4⟩, h5⟩ := getAgent_snd_shape s slug n t
  exact ⟨h1, h2, h3, h4, h5⟩

theorem except_map_ok {α β ε : Type} {f : α → β} {x : Except ε α} {b : β}
    (h : x.map f = .ok b) : ∃ a, x = .ok a ∧ f a = b := by
  cases x with
  | error e => cases h
  | ok a => exact ⟨a, rfl, by injection h⟩

theorem except_map_error {α β ε : Type} {f : α → β} {x : Except ε α} {e : ε}
    (hx : x = .error e) : x.map f = .error e := by
  rw [hx]; rfl

theorem resolveToList_sameShape (slug : String) (project : Project) (sender : Agent) (now : Nat) :
    ∀ (names : List String) (s : Store),
      sameShape s (resolveToList slug project sender now s names).2 := by
  intro names
  induction names with
  | nil => intro s; exact sameShape_refl s
  | cons n rest ih =>
    intro s
    unfold resolveToList
    split
    · exact ih s
    · cases hg : getAgent s slug n now with
      | mk res st =>
        cases res with
        | error e =>
          have := getAgent_sameShape s slug n now
          rw [hg] at this
          exact this
        | ok a =>
          have h1 := getAgent_sameShape s slug n now
          rw [hg] at h1
          exact sameShape_trans h1 (ih st)

theorem resolveCcList_sameShape (slug : String) (now : Nat) :
    ∀ (names : List String) (s : Store),
      sameShape s (resolveCcList slug now s names).2 := by
  intro names
  induction names with
  | nil => intro s; exact sameShape_refl s
  | cons n rest ih =>
    intro s
    unfold resolveCcList
    cases hg : getAgent s slug n now with
    | mk res st =>
      cases res with
      | error e =>
        have := getAgent_sameShape s slug n now
        rw [hg] at this
        exact this
      | ok a =>
        have h1 := getAgent_sameShape s slug n now
        rw [hg] at h1
        exact sameShape_trans h1 (ih st)

theorem resolveToList_err (slug : String) (project : Project) (sender : Agent) (now : Nat) :
    ∀ (names : List String) (s : Store),
      (∃ n ∈ names, jsToLower n ≠ "all" ∧ agentResolvable s slug n = false) →
      ∃ e s', resolveToList slug project sender now s names = (.error e, s') := by
  intro names
  induction names with
  | nil => intro s h; obtain ⟨n, hn, _⟩ := h; cases hn
  | cons n rest ih =>
    intro s h
    obtain ⟨n0, hn0, hlow, hres⟩ := h
    unfold resolveToList
    rcases List.mem_cons.mp hn0 with rfl | hmem
    · -- the failing entry is the head
      have hne : (jsToLower n0 == "all") = false := by
        cases hq : (jsToLower n0 == "all") with
        | false => rfl
        | true => exact absurd (by simpa using hq) hlow
      rw [if_neg (by simp [hne])]
      obtain ⟨e, hge⟩ := getAgent_err_of_not_resolvable now hres
      rw [hge]
      exact ⟨e, s, rfl⟩
    · -- the failing entry is further down
      split
      · obtain ⟨e, s', hrec⟩ := ih s ⟨n0, hmem, hlow, hres⟩
        refine ⟨e, s', ?_⟩
        dsimp only
        rw [hrec]
        rfl
      · cases hg : getAgent s slug n now with
        | mk res st =>
          cases res with
          | error e => exact ⟨e, st, rfl⟩
          | ok a =>
            have hsh := getAgent_sameShape s slug n now
            rw [hg] at hsh
            have hres' : agentResolvable st slug n0 = false := by
              rw [← agentResolvable_congr hsh.1.symm hsh.2.2.2.2.symm]
              exact hres
            obtain ⟨e, s', hrec⟩ := ih st ⟨n0, hmem, hlow, hres'⟩
            refine ⟨e, s', ?_⟩
            dsimp only
            rw [hrec]
            rfl

theorem resolveCcList_err (slug : String) (now : Nat) :
    ∀ (names : List String) (s : Store),
      (∃ n ∈ names, agentResolvable s slug n = false) →
      ∃ e s', resolveCcList slug now s names = (.error e, s') := by
  intro names
  induction names with
  | nil => intro s h; obtain ⟨n, hn, _⟩ := h; cases hn
  | cons n rest ih =>
    intro s h
    obtain ⟨n0, hn0, hres⟩ := h
    unfold resolveCcList
    rcases List.mem_cons.mp hn0 with rfl | hmem
    · obtain ⟨e, hge⟩ := getAgent_err_of_not_resolvable now hres
      rw [hge]
      exact ⟨e, s, rfl⟩
    · cases hg : getAgent s slug n now with
      | mk res st =>
        cases res with
        | error e => exact ⟨e, st, rfl⟩
        | ok a =>
          have hsh := getAgent_sameShape s slug n now
          rw [hg] at hsh
          have hres' : agentResolvable st slug n0 = false := by
            rw [← agentResolvable_congr hsh.1.symm hsh.2.2.2.2.symm]
            exact hres
          obtain ⟨e, s', hrec⟩ := ih st ⟨n0, hmem, hres'⟩
          refine ⟨e, s', ?_⟩
          dsimp only
          rw [hrec]
          rfl

theorem resolveToList_kinds (slug : String) (project : Project) (sender : Agent) (now : Nat) :
    ∀ (names : List String) (s : Store) (entries : List RecipientEntry) (s' : Store),
      resolveToList slug project sender now s names = (.ok entries, s') →
      ∀ ent ∈ entries, ent.kind = "to" := by
  intro names
  induction names with
  | nil =>
    intro s entries s' h ent hent
    have : entries = [] := by injection (congrArg Prod.fst h) with h'; exact h'.symm
    subst this; cases hent
  | cons n rest ih =>
    intro s entries s' h ent hent
    unfold resolveToList at h
    revert h
    split
    · intro h
      have h1 := congrArg Prod.fst h
      obtain ⟨tail, htail, hcat⟩ := except_map_ok h1
      subst hcat
      rcases List.mem_append.mp hent with hmem | hmem
      · obtain ⟨a, _, rfl⟩ := List.mem_map.mp hmem
        rfl
      · have h2 := congrArg Prod.snd h
        exact ih s tail _ (Prod.ext htail h2) ent hmem
    · intro h
      revert h
      cases hg : getAgent s slug n now with
      | mk res st =>
        cases res with
        | error e =>
          intro h
          dsimp only at h
          cases congrArg Prod.fst h
        | ok a =>
          intro h
          have h1 := congrArg Prod.fst h
          obtain ⟨tail, htail, hcons⟩ := except_map_ok h1
          subst hcons
          rcases List.mem_cons.mp hent with rfl | hmem
          · rfl
          · have h2 := congrArg Prod.snd h
            exact ih st tail _ (Prod.ext htail h2) ent hmem

theorem resolveCcList_kinds (slug : String) (now : Nat) :
    ∀ (names : List String) (s : Store) (entries : List RecipientEntry) (s' : Store),
      resolveCcList slug now s names = (.ok entries, s') →
      ∀ ent ∈ entries, ent.kind = "cc" := by
  intro names
  induction names with
  | nil =>
    intro s entries s' h ent hent
    have : entries = [] := by injection (congrArg Prod.fst h) with h'; exact h'.symm
    subst this; cases hent
  | cons n rest ih =>
    intro s entries s' h ent hent
    unfold resolveCcList at h
    revert h
    cases hg : getAgent s slug n now with
    | mk res st =>
      cases res with
      | error e =>
        intro h
        dsimp only at h
        cases congrArg Prod.fst h
      | ok a =>
        intro h
        have h1 := congrArg Prod.fst h
        obtain ⟨tail, htail, hcons⟩ := except_map_ok h1
        subst hcons
        rcases List.mem_cons.mp hent with rfl | hmem
        · rfl
        · have h2 := congrArg Prod.snd h
          exact ih st tail _ (Prod.ext htail h2) ent hmem


/-! ## Store well-formedness -/

/-- Invariants guaranteed by the schema: unique agent rowids, the
`UNIQUE(project_id, name)` constraint, unique message rowids, and the
foreign key from `message_recipients.message_id` into `messages`. -/
def WF (s : Store) : Prop :=
  (s.agents.map (fun a => a.id)).Nodup ∧
  (s.agents.map (fun a => (a.project_id, a.name))).Nodup ∧
  (s.messages.map (fun m => m.id)).Nodup ∧
  (∀ r ∈ s.message_recipients, r.message_id ∈ s.messages.map (fun m => m.id))

/-- "A message with zero recipient rows must never exist". -/
def MessagesHaveRecipients (s : Store) : Prop :=
  ∀ m ∈ s.messages, ∃ r ∈ s.message_recipients, r.message_id = m.id

theorem insertRecipients_appends (mid : Nat) :
    ∀ (entries : List RecipientEntry) (rows : List MessageRecipient),
      ∃ t, (insertRecipients mid entries rows).2 = rows ++ t := by
  intro entries
  induction entries with
  | nil => intro rows; exact ⟨[], (List.append_nil rows).symm⟩
  | cons e rest ih =>
    intro rows
    unfold insertRecipients
    split
    · exact ⟨[], (List.append_nil rows).symm⟩
    · obtain ⟨t, ht⟩ := ih (rows ++ [recipientRow mid e])
      exact ⟨recipientRow mid e :: t, by rw [ht, List.append_assoc]; rfl⟩

theorem insertRecipients_head_mem (mid : Nat) (e : RecipientEntry) (rest : List RecipientEntry)
    (rows : List MessageRecipient)
    (hk : kindValid e.kind = true)
    (hno : rows.any (fun r => r.message_id == mid && r.agent_id == e.agentId) = false) :
    recipientRow mid e ∈ (insertRecipients mid (e :: rest) rows).2 := by
  unfold insertRecipients
  rw [if_neg (by simp [hno, hk])]
  obtain ⟨t, ht⟩ := insertRecipients_appends mid rest (rows ++ [recipientRow mid e])
  rw [ht]
  exact List.mem_append.mpr (Or.inl (List.mem_append.mpr (Or.inr (List.mem_singleton.mpr rfl))))

theorem insertRecipients_all_ok (mid : Nat) :
    ∀ (entries : List RecipientEntry) (rows : List MessageRecipient),
      (∀ e ∈ entries, kindValid e.kind = true) →
      (entries.map (fun e => e.agentId)).Nodup →
      (∀ r ∈ rows, r.message_id = mid → r.agent_id ∉ entries.map (fun e => e.agentId)) →
      insertRecipients mid entries rows = (true, rows ++ entries.map (recipientRow mid)) := by
  intro entries
  induction entries with
  | nil => intro rows _ _ _; simp [insertRecipients]
  | cons e rest ih =>
    intro rows hk hnodup hrows
    unfold insertRecipients
    have hany : rows.any (fun r => r.message_id == mid && r.agent_id == e.agentId) = false := by
      cases hq : rows.any (fun r => r.message_id == mid && r.agent_id == e.agentId) with
      | false => rfl
      | true =>
        obtain ⟨r, hrmem, hrp⟩ := List.any_eq_true.mp hq
        have h1 : r.message_id = mid := by
          have := (Bool.and_eq_true _ _).mp hrp
          exact beq_iff_eq.mp this.1
        have h2 : r.agent_id = e.agentId := by
          have := (Bool.and_eq_true _ _).mp hrp
          exact beq_iff_eq.mp this.2
        have := hrows r hrmem h1
        exact absurd (List.mem_map.mpr ⟨e, List.mem_cons_self e rest, h2.symm⟩) this
    rw [if_neg (by simp [hany, hk e (List.mem_cons_self e rest)])]
    have hk' : ∀ x ∈ rest, kindValid x.kind = true :=
      fun x hx => hk x (List.mem_cons_of_mem e hx)
    have hnodup' : (rest.map (fun e => e.agentId)).Nodup := by
      rw [List.map_cons, List.nodup_cons] at hnodup
      exact hnodup.2
    have hnotmem : e.agentId ∉ rest.map (fun e => e.agentId) := by
      rw [List.map_cons, List.nodup_cons] at hnodup
      exact hnodup.1
    have hrows' : ∀ r ∈ rows ++ [recipientRow mid e], r.message_id = mid →
        r.agent_id ∉ rest.map (fun e => e.agentId) := by
      intro r hr hmid
      rcases List.mem_append.mp hr with hr | hr
      · intro hc
        have : r.agent_id ∈ (e :: rest).map (fun e => e.agentId) := by
          rw [List.map_cons]
          exact List.mem_cons_of_mem _ hc
        exact hrows r hr hmid this
      · rw [List.mem_singleton.mp hr]
        exact hnotmem
    rw [ih (rows ++ [recipientRow mid e]) hk' hnodup' hrows']
    rw [List.append_assoc]
    rfl


/-! ## Reservation-creation facts -/

theorem find?_fresh_append (l : List FileReservation) (row : FileReservation)
    (hid : row.id = freshId (l.map (fun fr => fr.id))) :
    (l ++ [row]).find? (fun fr => fr.id == freshId (l.map (fun fr => fr.id))) = some row := by
  apply find?_append_last
  · intro fr hfr
    exact beq_eq_false_iff_ne.mpr
      (Nat.ne_of_lt (mem_lt_freshId (List.mem_map_of_mem (fun fr => fr.id) hfr)))
  · rw [hid]
    exact beq_self_eq_true _

theorem createReservation_parts {s : Store} {inp : CreateReservationInput} {now : Nat}
    {res : ReservationResult} {s1 : Store}
    (h : createReservation s inp now = (.ok res, s1)) :
    ∃ p a sA, getProject s inp.projectSlug = .ok p ∧
      getAgent s inp.projectSlug inp.agentName now = (.ok a, sA) ∧
      ∃ r : FileReservation,
        r = { id := freshId (sA.file_reservations.map (fun fr => fr.id)), project_id := p.id,
              agent_id := a.id, path_pattern := inp.pathPattern,
              exclusive := inp.exclusive.getD true, reason := inp.reason.getD "",
              created_ts := now, expires_ts := now + inp.ttlSeconds.getD 3600,
              released_ts := none } ∧
        res = { granted := [r], conflicts := conflictsFor sA p.id a inp.pathPattern now } ∧
        s1 = { sA with file_reservations := sA.file_reservations ++ [r] } := by
  unfold createReservation at h
  cases hp : getProject s inp.projectSlug with
  | error e => rw [hp] at h; cases h
  | ok p =>
    rw [hp] at h
    dsimp only at h
    cases hg : getAgent s inp.projectSlug inp.agentName now with
    | mk gres sA =>
      rw [hg] at h
      cases gres with
      | error e => cases congrArg Prod.fst h
      | ok a =>
        dsimp only at h
        rw [find?_fresh_append sA.file_reservations _ rfl] at h
        dsimp only at h
        have h1 := congrArg Prod.fst h
        have h2 := congrArg Prod.snd h
        dsimp only at h1 h2
        injection h1 with h1'
        exact ⟨p, a, sA, rfl, rfl, _, rfl, h1'.symm, h2.symm⟩

/-! ## Witness fixtures: a small concrete store -/

/-- Witness project. -/
def wProject : Project :=
  { id := 1, slug := "proj", human_key := "/proj", created_at := 0 }

/-- Witness agent `AmberFox`. -/
def wAmber : Agent :=
  { id := 1, project_id := 1, name := "AmberFox", program := "claude", model := "opus",
    task_description := "", inception_ts := 0, last_active_ts := 0 }

/-- Witness agent `JadeWolf`. -/
def wJade : Agent :=
  { id := 2, project_id := 1, name := "JadeWolf", program := "claude", model := "opus",
    task_description := "", inception_ts := 0, last_active_ts := 0 }

/-- Witness store: one project, two agents, nothing else. -/
def wStore : Store :=
  { projects := [wProject], agents := [wAmber, wJade], messages := [],
    message_recipients := [], file_reservations := [] }

/-- Reservation request of `AmberFox` for `src/auth/**`, TTL 60. -/
def wInpAmber : CreateReservationInput :=
  { projectSlug := "proj", agentName := "AmberFox", pathPattern := "src/auth/**",
    ttlSeconds := some 60, exclusive := none, reason := none }

/-- Reservation request of `JadeWolf` for `src/auth/login.go`, TTL 60. -/
def wInpJade : CreateReservationInput :=
  { projectSlug := "proj", agentName := "JadeWolf", pathPattern := "src/auth/login.go",
    ttlSeconds := some 60, exclusive := none, reason := none }

/-- The store after `AmberFox`'s create at time 10. -/
def wStoreR1 : Store := (createReservation wStore wInpAmber 10).2

/-- The store after `AmberFox`'s create at 10 and `JadeWolf`'s at 20. -/
def wStoreR2 : Store := (createReservation wStoreR1 wInpJade 20).2


/-- The store after resolving `AmberFox` in `wStore` at time 10. -/
def wSA : Store := (getAgent wStore "proj" "AmberFox" 10).2

/-- C1: for every resolvable project and agent, `createReservation` never
fails: it returns success carrying the granted reservation row — inserted
with `expires_ts = now + ttlSeconds`, defaulting to 3600 seconds when
`ttlSeconds` is absent — together with the conflicts list; conflicts are
data in the successful response, never an error. -/
theorem C1_createReservation_conflicts_are_data
    (s : Store) (inp : CreateReservationInput) (now : Nat)
    (p : Project) (a : Agent) (sA : Store)
    (hp : getProject s inp.projectSlug = .ok p)
    (ha : getAgent s inp.projectSlug inp.agentName now = (.ok a, sA)) :
    ∃ r : FileReservation,
      (createReservation s inp now).1 =
        .ok { granted := [r], conflicts := conflictsFor sA p.id a inp.pathPattern now } ∧
      r.expires_ts = now + inp.ttlSeconds.getD 3600 ∧
      r.path_pattern = inp.pathPattern ∧ r.project_id = p.id ∧ r.agent_id = a.id ∧
      r.released_ts = none := by
  unfold createReservation
  rw [hp]
  dsimp only
  rw [ha]
  dsimp only
  rw [find?_fresh_append sA.file_reservations _ rfl]
  exact ⟨_, rfl, rfl, rfl, rfl, rfl, rfl⟩

/-- Witness for C1: `AmberFox` reserving `src/auth/**` in the concrete
store succeeds with the stamped expiry. -/
theorem C1_witness :
    ∃ r : FileReservation,
      (createReservation wStore wInpAmber 10).1 =
        .ok { granted := [r],
              conflicts := conflictsFor wSA wProject.id wAmber wInpAmber.pathPattern 10 } ∧
      r.expires_ts = 10 + wInpAmber.ttlSeconds.getD 3600 ∧
      r.path_pattern = wInpAmber.pathPattern ∧ r.project_id = wProject.id ∧
      r.agent_id = wAmber.id ∧ r.released_ts = none :=
  C1_createReservation_conflicts_are_data wStore wInpAmber 10 wProject wAmber wSA
    (by decide) (by decide)

/-- The reservation row granted to `AmberFox` at time 10 (expiry 70). -/
def wAmberRow : FileReservation :=
  { id := 1, project_id := 1, agent_id := 1, path_pattern := "src/auth/**", exclusive := true,
    reason := "", created_ts := 10, expires_ts := 70, released_ts := none }

/-- The reservation row granted to `JadeWolf` at time 20 (expiry 80). -/
def wJadeRow : FileReservation :=
  { id := 2, project_id := 1, agent_id := 2, path_pattern := "src/auth/login.go",
    exclusive := true, reason := "", created_ts := 20, expires_ts := 80, released_ts := none }

/-- An `active=true` listing query for the witness project. -/
def wActiveQ : ListReservationsQuery := { projectSlug := "proj", active := true }

/-- The active listing of `wStoreR2` at time 71. -/
def wList71 : List ReservationWithAgent := [{ fr := wJadeRow, agent_name := "JadeWolf" }]

/-- C2 (code bug): `AmberFox`'s reservation created at second 10 of the
UTC day with TTL 60 expires at second 70, yet the `active=true` listing at
second 71 — more than the TTL past creation — still includes it, because
the stored ISO-format `expires_ts` memcmp-compares greater than the
space-format `datetime('now')` whenever the UTC dates coincide.  Only
after the date rolls over (second 86401) is the row omitted, which is
when `expires_ts > datetime('now')` first becomes false in the program,
contradicting the claim's point-in-time reading of the predicate. -/
theorem C2_same_day_expired_still_listed :
    wAmberRow.expires_ts = 70 ∧ wAmberRow.released_ts = none ∧ (70 : Nat) < 71 ∧
    listReservations wStoreR1 wActiveQ 71 =
      .ok [{ fr := wAmberRow, agent_name := "AmberFox" }] ∧
    listReservations wStoreR1 wActiveQ 86401 = .ok [] := by
  exact ⟨by decide, by decide, by decide, by decide, by decide⟩

theorem ite_symm_helper (A B C D E F : Bool) (G H : Bool) (hG : G = H) :
    (if A || B then true else if C && D && (E || F) then true else G) =
    (if B || A then true else if D && C && (F || E) then true else H) := by
  rw [Bool.or_comm A B, Bool.and_comm C D, Bool.or_comm E F, hG]

theorem beq_string_comm (a b : String) : (a == b) = (b == a) := by
  by_cases h : a = b
  · rw [h]
  · have h1 : (a == b) = false := beq_eq_false_iff_ne.mpr h
    have h2 : (b == a) = false := beq_eq_false_iff_ne.mpr (Ne.symm h)
    rw [h1, h2]

theorem patternsOverlap_symm (p q : String) : patternsOverlap p q = patternsOverlap q p := by
  unfold patternsOverlap
  dsimp only
  exact ite_symm_helper _ _ _ _ _ _ _ _ (beq_string_comm p q)

/-- C4: the pattern-overlap heuristic is symmetric, and `createReservation`
reports in its `conflicts` list every active exclusive reservation of a
different agent whose pattern overlaps the requested one.  Instantiating
the second part at the store holding R1 (resp. R2) shows that creating R2
reports R1 and, with creation order reversed, creating R1 reports R2. -/
theorem C4_overlap_symmetric_and_reported :
    (∀ p q : String, patternsOverlap p q = patternsOverlap q p) ∧
    (∀ (s : Store) (inp : CreateReservationInput) (now : Nat)
       (p : Project) (ag : Agent) (sA : Store) (r : FileReservation) (other : Agent),
       getProject s inp.projectSlug = .ok p →
       getAgent s inp.projectSlug inp.agentName now = (.ok ag, sA) →
       r ∈ s.file_reservations → r.project_id = p.id → r.exclusive = true →
       r.released_ts = none → now < r.expires_ts → r.agent_id ≠ ag.id →
       other ∈ s.agents → other.id = r.agent_id →
       patternsOverlap inp.pathPattern r.path_pattern = true →
       ∃ res s1, createReservation s inp now = (.ok res, s1) ∧
         ({ id := r.id, agent_name := other.name, path_pattern := r.path_pattern,
            expires_ts := r.expires_ts, reason := r.reason } : ReservationConflict)
           ∈ res.conflicts) := by
  constructor
  · exact patternsOverlap_symm
  · intro s inp now p ag sA r other hp hga hr hproj hexcl hrel hexp hne hother hoid hov
    obtain ⟨hsA, _⟩ := getAgent_ok_parts hga
    unfold createReservation
    rw [hp]
    dsimp only
    rw [hga]
    dsimp only
    rw [find?_fresh_append sA.file_reservations _ rfl]
    dsimp only
    refine ⟨_, _, rfl, ?_⟩
    show _ ∈ conflictsFor sA p.id ag inp.pathPattern now
    unfold conflictsFor
    apply List.mem_map.mpr
    refine ⟨{ fr := r, agent_name := other.name }, ?_, rfl⟩
    apply List.mem_filter.mpr
    refine ⟨?_, ?_⟩
    · unfold activeExclusiveOthers
      apply List.mem_flatMap.mpr
      refine ⟨r, ?_, ?_⟩
      · apply List.mem_filter.mpr
        refine ⟨?_, ?_⟩
        · rw [hsA]
          exact hr
        · simp only [Bool.and_eq_true, beq_iff_eq, decide_eq_true_eq, bne_iff_ne,
            isoAfterSqlNow, utcDay]
          exact ⟨⟨⟨⟨hproj, by rw [hrel]⟩, Nat.div_le_div_right (Nat.le_of_lt hexp)⟩,
            hexcl⟩, hne⟩
      · apply List.mem_map.mpr
        refine ⟨other, ?_, rfl⟩
        apply List.mem_filter.mpr
        refine ⟨?_, by simp [hoid]⟩
        rw [hsA]
        show other ∈ touchAgent s.agents ag.id now
        unfold touchAgent
        have hother' : (if other.id == ag.id then { other with last_active_ts := now } else other)
            = other := by
          rw [if_neg]
          simp only [beq_iff_eq]
          rw [hoid]
          exact hne
        rw [← hother']
        exact List.mem_map_of_mem _ hother
    · simp only [Bool.and_eq_true, bne_iff_ne]
      exact ⟨hne, hov⟩

/-- The store after resolving `JadeWolf` in `wStoreR1` at time 20. -/
def wSA2 : Store := (getAgent wStoreR1 "proj" "JadeWolf" 20).2

/-- `AmberFox` as touched by the create at time 10. -/
def wAmberT : Agent := { wAmber with last_active_ts := 10 }

/-- Witness for C4: `JadeWolf` reserving `src/auth/login.go` at time 20,
while `AmberFox`'s reservation on `src/auth/**` is active, gets a conflict
entry naming `AmberFox`; the overlap test itself is symmetric at these
patterns. -/
theorem C4_witness :
    (patternsOverlap "src/auth/login.go" "src/auth/**" =
      patternsOverlap "src/auth/**" "src/auth/login.go") ∧
    (∃ res s1, createReservation wStoreR1 wInpJade 20 = (.ok res, s1) ∧
      ({ id := wAmberRow.id, agent_name := wAmberT.name, path_pattern := wAmberRow.path_pattern,
         expires_ts := wAmberRow.expires_ts, reason := wAmberRow.reason } : ReservationConflict)
        ∈ res.conflicts) :=
  ⟨C4_overlap_symmetric_and_reported.1 "src/auth/login.go" "src/auth/**",
   C4_overlap_symmetric_and_reported.2 wStoreR1 wInpJade 20 wProject wJade wSA2 wAmberRow wAmberT
     (by decide) (by decide) (by decide) (by decide) (by decide) (by decide) (by decide)
     (by decide) (by decide) (by decide) (by decide)⟩


theorem getAgent_rerun {s : Store} {slug n : String} {now : Nat} {ag : Agent} {sA : Store}
    (hga : getAgent s slug n now = (.ok ag, sA)) (s' : Store) (now2 : Nat)
    (hproj : s'.projects = s.projects) (hagents : s'.agents = sA.agents) :
    ∃ ag2, getAgent s' slug n now2 =
        (.ok ag2, { s' with agents := touchAgent s'.agents ag2.id now2 }) ∧
      ag2.id = ag.id ∧ ag2.project_id = ag.project_id ∧ ag2.name = ag.name := by
  obtain ⟨hsA, p, hp, hfind⟩ := getAgent_ok_parts hga
  have hpred : ∀ x : Agent,
      ((if x.id == ag.id then { x with last_active_ts := now } else x).project_id == p.id &&
        (if x.id == ag.id then { x with last_active_ts := now } else x).name == n) =
      (x.project_id == p.id && x.name == n) := by
    intro x
    split <;> rfl
  have hfind' : s'.agents.find? (fun x => x.project_id == p.id && x.name == n) =
      some (if ag.id == ag.id then { ag with last_active_ts := now } else ag) := by
    rw [hagents, hsA]
    show (touchAgent s.agents ag.id now).find? _ = _
    unfold touchAgent
    rw [find?_map_of_pred_inv hpred, hfind]
    rfl
  rw [if_pos (beq_self_eq_true ag.id)] at hfind'
  unfold getAgent
  rw [getProject_congr hproj, hp]
  dsimp only
  rw [hfind']
  exact ⟨_, rfl, rfl, rfl, rfl⟩

theorem filter_after_release_all (l : List FileReservation) (pid aid now : Nat) :
    (l.map (fun fr =>
        if fr.project_id == pid && fr.agent_id == aid && fr.released_ts == none then
          { fr with released_ts := some now }
        else fr)).filter
      (fun fr => fr.project_id == pid && fr.agent_id == aid && fr.released_ts == none) = [] := by
  induction l with
  | nil => rfl
  | cons fr l ih =>
    rw [List.map_cons, List.filter_cons]
    by_cases h : (fr.project_id == pid && fr.agent_id == aid && fr.released_ts == none) = true
    · rw [if_pos h]
      have hfalse : ((({ fr with released_ts := some now } : FileReservation).project_id == pid &&
          ({ fr with released_ts := some now } : FileReservation).agent_id == aid &&
          ({ fr with released_ts := some now } : FileReservation).released_ts == none)) = false := by
        simp
      rw [hfalse]
      exact ih
    · rw [if_neg h]
      rw [Bool.not_eq_true] at h
      rw [h]
      exact ih

/-- C5 (amended): `releaseReservations` with `all=true` stamps
`released_ts = now` on every **unreleased** reservation of the agent in
the project — including already-expired ones, because the `UPDATE` filters
only on `released_ts IS NULL`, not on `expires_ts > now` — and on no other
rows; the returned count is the number of such rows, and an immediately
following second `all=true` call releases zero. -/
theorem C5_release_all_unreleased
    (s : Store) (inp : ReleaseReservationInput) (now now2 : Nat)
    (p : Project) (ag : Agent) (sA : Store)
    (hall : inp.all = true)
    (hp : getProject s inp.projectSlug = .ok p)
    (hga : getAgent s inp.projectSlug inp.agentName now = (.ok ag, sA)) :
    ∃ s1, releaseReservations s inp now =
        (.ok { released := (sA.file_reservations.filter
                  (fun fr => fr.project_id == p.id && fr.agent_id == ag.id &&
                             fr.released_ts == none)).length,
               releasedAt := now }, s1) ∧
      s1.file_reservations = sA.file_reservations.map (fun fr =>
        if fr.project_id == p.id && fr.agent_id == ag.id && fr.released_ts == none then
          { fr with released_ts := some now }
        else fr) ∧
      (releaseReservations s1 inp now2).1 = .ok { released := 0, releasedAt := now2 } := by
  obtain ⟨hsA, p', hp', hfind⟩ := getAgent_ok_parts hga
  unfold releaseReservations
  rw [hp]
  dsimp only
  rw [hga]
  dsimp only
  rw [hall, if_pos rfl]
  refine ⟨_, rfl, rfl, ?_⟩
  have hproj1 : ({ sA with file_reservations := sA.file_reservations.map (fun fr =>
      if fr.project_id == p.id && fr.agent_id == ag.id && fr.released_ts == none then
        { fr with released_ts := some now }
      else fr) } : Store).projects = s.projects := by
    rw [hsA]
  obtain ⟨ag2, hga2, hid2, _, _⟩ := getAgent_rerun hga _ now2 hproj1 rfl
  rw [getProject_congr hproj1, hp]
  dsimp only
  rw [hga2]
  dsimp only
  rw [if_pos rfl]
  simp only [hid2]
  rw [filter_after_release_all]
  rfl

/-- The store holding one already-expired, unreleased reservation of
`AmberFox` (expiry 5). -/
def cex5Store : Store :=
  { projects := [wProject], agents := [wAmber, wJade], messages := [],
    message_recipients := [],
    file_reservations := [{ id := 1, project_id := 1, agent_id := 1, path_pattern := "a",
                            exclusive := true, reason := "", created_ts := 0, expires_ts := 5,
                            released_ts := none }] }

/-- Release-all request of `AmberFox`. -/
def cex5Inp : ReleaseReservationInput :=
  { projectSlug := "proj", agentName := "AmberFox", pattern := none, all := true }

/-- C5 counterexample: at time 10 the only reservation is expired
(`expires_ts = 5 ≤ 10`), hence **not** currently active, yet `all=true`
reports one released row and stamps `released_ts = 10` on it — the claim
that only currently-active rows are touched is false. -/
theorem C5_counterexample :
    (¬ 10 < 5) ∧
    (releaseReservations cex5Store cex5Inp 10).1 =
      .ok { released := 1, releasedAt := 10 } ∧
    ((releaseReservations cex5Store cex5Inp 10).2.file_reservations.map
      (fun fr => fr.released_ts)) = [some 10] := by
  refine ⟨by decide, by decide, by decide⟩

/-- Witness for C5 (amended) at the same concrete store. -/
theorem C5_witness :
    ∃ s1, releaseReservations cex5Store cex5Inp 10 =
        (.ok { released := ((getAgent cex5Store "proj" "AmberFox" 10).2.file_reservations.filter
                  (fun fr => fr.project_id == wProject.id && fr.agent_id == wAmber.id &&
                             fr.released_ts == none)).length,
               releasedAt := 10 }, s1) ∧
      s1.file_reservations = (getAgent cex5Store "proj" "AmberFox" 10).2.file_reservations.map
        (fun fr =>
          if fr.project_id == wProject.id && fr.agent_id == wAmber.id &&
              fr.released_ts == none then
            { fr with released_ts := some 10 }
          else fr) ∧
      (releaseReservations s1 cex5Inp 12).1 = .ok { released := 0, releasedAt := 12 } :=
  C5_release_all_unreleased cex5Store cex5Inp 10 12 wProject wAmber
    (getAgent cex5Store "proj" "AmberFox" 10).2 (by decide) (by decide) (by decide)


/-- C9 (amended): `ensureProject` is sequentially idempotent — a repeated
call with the same human key returns the same row and leaves the store
unchanged — but a first call whose insert phase runs against a store in
which a concurrent insert of the same key has already landed returns
`PROJECT_CREATE_FAILED` instead of re-reading the winner's row. -/
theorem C9_ensureProject_idempotent_but_race_errors :
    (∀ (s : Store) (key : String) (now1 now2 : Nat),
       ∃ p s1, ensureProject s key now1 = (.ok p, s1) ∧
         ensureProject s1 key now2 = (.ok p, s1)) ∧
    (∀ (s : Store) (key : String) (now : Nat),
       s.projects.any (fun q => q.slug == projectSlug key || q.human_key == key) = true →
       (ensureProjectInsertPhase s key (projectSlug key) now).1 =
         .error { type := "PROJECT_CREATE_FAILED", message := "UNIQUE constraint failed",
                  recoverable := false }) := by
  constructor
  · intro s key now1 now2
    unfold ensureProject
    dsimp only
    cases hf : s.projects.find? (fun p => p.human_key == key || p.slug == projectSlug key) with
    | some existing => exact ⟨existing, s, rfl, by rw [hf]⟩
    | none =>
      have hnone := List.find?_eq_none.mp hf
      have hany : s.projects.any (fun p => p.slug == projectSlug key || p.human_key == key)
          = false := by
        cases hq : s.projects.any (fun p => p.slug == projectSlug key || p.human_key == key) with
        | false => rfl
        | true =>
          obtain ⟨q, hqmem, hqp⟩ := List.any_eq_true.mp hq
          have hq2 : (q.human_key == key || q.slug == projectSlug key) = true := by
            rw [Bool.or_comm] at hqp
            exact hqp
          exact absurd hq2 (by simpa using hnone q hqmem)
      unfold ensureProjectInsertPhase
      dsimp only
      rw [hany, if_neg Bool.false_ne_true]
      have hfind2 : (s.projects ++
          [({ id := freshId (s.projects.map (fun p => p.id)), slug := projectSlug key,
              human_key := key, created_at := now1 } : Project)]).find?
            (fun p => p.slug == projectSlug key) =
          some ({ id := freshId (s.projects.map (fun p => p.id)), slug := projectSlug key,
                  human_key := key, created_at := now1 } : Project) := by
        apply find?_append_last
        · intro x hx
          have hx2 := hnone x hx
          cases hxs : (x.slug == projectSlug key) with
          | false => rfl
          | true =>
            exact absurd (show (x.human_key == key || x.slug == projectSlug key) = true by
              rw [hxs, Bool.or_true]) hx2
        · exact beq_self_eq_true _
      rw [hfind2]
      refine ⟨_, _, rfl, ?_⟩
      dsimp only
      have hfind3 : (s.projects ++
          [({ id := freshId (s.projects.map (fun p => p.id)), slug := projectSlug key,
              human_key := key, created_at := now1 } : Project)]).find?
            (fun p => p.human_key == key || p.slug == projectSlug key) =
          some ({ id := freshId (s.projects.map (fun p => p.id)), slug := projectSlug key,
                  human_key := key, created_at := now1 } : Project) := by
        apply find?_append_last
        · intro x hx
          exact (by simpa using hnone x hx :
            (x.human_key == key || x.slug == projectSlug key) = false)
        · show (key == key || projectSlug key == projectSlug key) = true
          simp
      rw [hfind3]
  · intro s key now h
    unfold ensureProjectInsertPhase
    rw [h, if_pos rfl]

/-- The empty store. -/
def emptyStore : Store :=
  { projects := [], agents := [], messages := [], message_recipients := [],
    file_reservations := [] }

/-- The store after a first successful `ensureProject "/repo"` (the race
winner's store). -/
def cex9Store : Store := (ensureProject emptyStore "/repo" 3).2

set_option maxRecDepth 8000 in
/-- C9 counterexample: a losing concurrent insert — the insert phase of
`ensureProject` executed against the store in which the winner's row for
the same key already exists — returns `PROJECT_CREATE_FAILED` rather than
the winner's row. -/
theorem C9_counterexample :
    cex9Store.projects.map (fun p => p.human_key) = ["/repo"] ∧
    (ensureProjectInsertPhase cex9Store "/repo" (projectSlug "/repo") 9).1 =
      .error { type := "PROJECT_CREATE_FAILED", message := "UNIQUE constraint failed",
               recoverable := false } := by
  exact ⟨by decide, by decide⟩

set_option maxRecDepth 8000 in
/-- Witness for C9 (amended): idempotency at the empty store and the
losing-insert error at the winner's store. -/
theorem C9_witness :
    (∃ p s1, ensureProject emptyStore "/repo" 3 = (.ok p, s1) ∧
       ensureProject s1 "/repo" 7 = (.ok p, s1)) ∧
    (ensureProjectInsertPhase cex9Store "/repo" (projectSlug "/repo") 9).1 =
      .error { type := "PROJECT_CREATE_FAILED", message := "UNIQUE constraint failed",
               recoverable := false } :=
  ⟨C9_ensureProject_idempotent_but_race_errors.1 emptyStore "/repo" 3 7,
   C9_ensureProject_idempotent_but_race_errors.2 cex9Store "/repo" 9 (by decide)⟩


theorem find?_agent_key_unique {l : List Agent}
    (hkeys : (l.map (fun a => (a.project_id, a.name))).Nodup)
    {b : Agent} (hb : b ∈ l) {pid : Nat} (hbp : b.project_id = pid) :
    l.find? (fun a => a.project_id == pid && a.name == b.name) = some b := by
  cases hf : l.find? (fun a => a.project_id == pid && a.name == b.name) with
  | none =>
    rw [List.find?_eq_none] at hf
    have hpred : (b.project_id == pid && b.name == b.name) = true := by
      simp [hbp]
    exact absurd hpred (hf b hb)
  | some x =>
    have hx := List.find?_some hf
    have hxm := List.mem_of_find?_eq_some hf
    simp only [Bool.and_eq_true, beq_iff_eq] at hx
    have hkey : (fun a : Agent => (a.project_id, a.name)) x =
        (fun a : Agent => (a.project_id, a.name)) b := by
      dsimp only
      rw [hx.1, hx.2, hbp]
    rw [List.inj_on_of_nodup_map hkeys hxm hb hkey]

theorem find?_agent_id_unique {l : List Agent}
    (hids : (l.map (fun a => a.id)).Nodup) {b : Agent} (hb : b ∈ l) :
    l.find? (fun a => a.id == b.id) = some b := by
  cases hf : l.find? (fun a => a.id == b.id) with
  | none =>
    rw [List.find?_eq_none] at hf
    exact absurd (beq_self_eq_true b.id) (hf b hb)
  | some x =>
    have hx := List.find?_some hf
    have hxm := List.mem_of_find?_eq_some hf
    have hkey : (fun a : Agent => a.id) x = (fun a : Agent => a.id) b := by
      dsimp only
      exact beq_iff_eq.mp hx
    rw [List.inj_on_of_nodup_map hids hxm hb hkey]

/-- C10 (amended): registering under the exact resolved name of an
existing agent B of the same project is treated as a profile update of B —
no second row, B's program/model/task_description/last_active_ts
overwritten, B's row returned, agent count unchanged — **provided** B's
name passes `isValidName`; a name produced by the numeric-suffix fallback
fails that validation and triggers fresh-name generation instead. -/
theorem C10_register_existing_valid_name_updates
    (s : Store) (input : RegisterAgentInput) (now : Nat) (rng : Nat → Nat × Nat)
    (p : Project) (b : Agent)
    (hids : (s.agents.map (fun a => a.id)).Nodup)
    (hkeys : (s.agents.map (fun a => (a.project_id, a.name))).Nodup)
    (hp : getProject s input.projectSlug = .ok p)
    (hb : b ∈ s.agents) (hbp : b.project_id = p.id)
    (hname : input.name = some b.name)
    (hvalid : isValidName b.name = true) :
    ∃ s', registerAgent s input now rng =
        (.ok { b with program := input.program, model := input.model,
                      task_description := input.taskDescription.getD "",
                      last_active_ts := now }, s') ∧
      s'.agents = s.agents.map (fun a =>
        if a.id == b.id then
          { a with program := input.program, model := input.model,
                   task_description := input.taskDescription.getD "",
                   last_active_ts := now }
        else a) ∧
      s'.agents.length = s.agents.length := by
  unfold registerAgent
  rw [hp]
  dsimp only
  rw [hname]
  dsimp only
  rw [if_pos hvalid]
  rw [find?_agent_key_unique hkeys hb hbp]
  dsimp only
  have hpred : ∀ a : Agent,
      ((if a.id == b.id then
          ({ a with program := input.program, model := input.model,
                    task_description := input.taskDescription.getD "",
                    last_active_ts := now } : Agent)
        else a).id == b.id) = (a.id == b.id) := by
    intro a
    split <;> rfl
  have hfind2 : (s.agents.map (fun a =>
      if a.id == b.id then
        ({ a with program := input.program, model := input.model,
                  task_description := input.taskDescription.getD "",
                  last_active_ts := now } : Agent)
      else a)).find? (fun a => a.id == b.id) =
      some ({ b with program := input.program, model := input.model,
                     task_description := input.taskDescription.getD "",
                     last_active_ts := now } : Agent) := by
    rw [find?_map_of_pred_inv hpred, find?_agent_id_unique hids hb]
    dsimp only [Option.map]
    rw [if_pos (beq_self_eq_true b.id)]
  rw [hfind2]
  exact ⟨_, rfl, rfl, (List.length_map _ _).symm ▸ rfl⟩

/-- Store with a single agent whose resolved name `AmberFox1` came from the
numeric-suffix fallback (it fails `isValidName`). -/
def cex10Store : Store :=
  { projects := [wProject],
    agents := [{ id := 1, project_id := 1, name := "AmberFox1", program := "old", model := "m",
                 task_description := "", inception_ts := 0, last_active_ts := 0 }],
    messages := [], message_recipients := [], file_reservations := [] }

/-- Registration request using exactly that agent's resolved name. -/
def cex10Input : RegisterAgentInput :=
  { projectSlug := "proj", name := some "AmberFox1", program := "new", model := "m2",
    taskDescription := none }

set_option maxRecDepth 8000 in
/-- C10 counterexample: registering with the exact resolved name
`AmberFox1` of the existing agent does **not** update that agent — the
name fails `isValidName`, a fresh name is generated, and a second row is
inserted: the project's agent count grows from 1 to 2 and the original
profile keeps `program = "old"`. -/
theorem C10_counterexample :
    cex10Store.agents.length = 1 ∧
    (registerAgent cex10Store cex10Input 5 (fun _ => (0, 0))).2.agents.length = 2 ∧
    ((registerAgent cex10Store cex10Input 5 (fun _ => (0, 0))).2.agents.map
      (fun a => (a.name, a.program))) = [("AmberFox1", "old"), ("AmberArrow", "new")] := by
  exact ⟨by decide, by decide, by decide⟩

/-- Registration request re-using `AmberFox`'s valid resolved name. -/
def wRegInput : RegisterAgentInput :=
  { projectSlug := "proj", name := some "AmberFox", program := "new", model := "m2",
    taskDescription := none }

set_option maxRecDepth 8000 in
/-- Witness for C10 (amended): re-registering `AmberFox` updates the
profile in place. -/
theorem C10_witness :
    ∃ s', registerAgent wStore wRegInput 5 (fun _ => (0, 0)) =
        (.ok { wAmber with program := wRegInput.program, model := wRegInput.model,
                           task_description := wRegInput.taskDescription.getD "",
                           last_active_ts := 5 }, s') ∧
      s'.agents = wStore.agents.map (fun a =>
        if a.id == wAmber.id then
          { a with program := wRegInput.program, model := wRegInput.model,
                   task_description := wRegInput.taskDescription.getD "",
                   last_active_ts := 5 }
        else a) ∧
      s'.agents.length = wStore.agents.length :=
  C10_register_existing_valid_name_updates wStore wRegInput 5 (fun _ => (0, 0)) wProject wAmber
    (by decide) (by decide) (by decide) (by decide) (by decide) (by decide) (by decide)



theorem find?_readStamp (mid aid now : Nat) (rows : List MessageRecipient) :
    (readStamp mid aid now rows).find? (fun r => r.message_id == mid && r.agent_id == aid) =
      (rows.find? (fun r => r.message_id == mid && r.agent_id == aid)).map
        (fun r => if r.message_id == mid && r.agent_id == aid then { r with read_ts := some now }
                  else r) := by
  unfold readStamp
  exact find?_map_of_pred_inv (fun r => by split <;> rfl) rows

theorem find?_ackStamp (mid aid now : Nat) (rows : List MessageRecipient) :
    (ackStamp mid aid now rows).find? (fun r => r.message_id == mid && r.agent_id == aid) =
      (rows.find? (fun r => r.message_id == mid && r.agent_id == aid)).map
        (fun r => if r.message_id == mid && r.agent_id == aid then
            { r with ack_ts := some now, read_ts := some (r.read_ts.getD now) }
          else r) := by
  unfold ackStamp
  exact find?_map_of_pred_inv (fun r => by split <;> rfl) rows

/-- C7: for every (message, agent) pair that has a recipient row, calling
`markRead` twice returns `read = true` with the same `readAt` both times:
the stored `read_ts` is written once by the first call and never
overwritten by later calls. -/
theorem C7_markRead_write_once
    (s : Store) (slug name : String) (mid now1 now2 : Nat)
    (ag : Agent) (sA : Store)
    (hga : getAgent s slug name now1 = (.ok ag, sA))
    (hrec : ∃ r ∈ s.message_recipients, r.message_id = mid ∧ r.agent_id = ag.id) :
    ∃ t s1, markRead s slug name mid now1 = (.ok { read := true, readAt := t }, s1) ∧
      (markRead s1 slug name mid now2).1 = .ok { read := true, readAt := t } := by
  obtain ⟨hsA, p, hp, hfindAg⟩ := getAgent_ok_parts hga
  have hrecs : sA.message_recipients = s.message_recipients := by rw [hsA]
  cases hfr : sA.message_recipients.find?
      (fun r => r.message_id == mid && r.agent_id == ag.id) with
  | none =>
    rw [List.find?_eq_none] at hfr
    obtain ⟨r, hrm, h1, h2⟩ := hrec
    exact absurd (by simp [h1, h2]) (hfr r (hrecs ▸ hrm))
  | some r0 =>
    have hp0 := List.find?_some hfr
    cases hread : r0.read_ts with
    | some t =>
      have hcall1 : markRead s slug name mid now1 = (.ok { read := true, readAt := t }, sA) := by
        unfold markRead
        rw [hga]
        dsimp only
        rw [hfr]
        dsimp only
        rw [hread]
      obtain ⟨ag2, hga2, hid2, _, _⟩ := getAgent_rerun hga sA now2 (by rw [hsA]) rfl
      have hcall2 : (markRead sA slug name mid now2).1 = .ok { read := true, readAt := t } := by
        unfold markRead
        rw [hga2]
        dsimp only
        simp only [hid2]
        rw [hfr]
        dsimp only
        rw [hread]
      exact ⟨t, sA, hcall1, hcall2⟩
    | none =>
      have hcall1 : markRead s slug name mid now1 =
          (.ok { read := true, readAt := now1 },
           { sA with message_recipients := readStamp mid ag.id now1 sA.message_recipients }) := by
        unfold markRead
        rw [hga]
        dsimp only
        rw [hfr]
        dsimp only
        rw [hread]
      obtain ⟨ag2, hga2, hid2, _, _⟩ := getAgent_rerun hga
        ({ sA with message_recipients := readStamp mid ag.id now1 sA.message_recipients })
        now2 (by rw [hsA]) rfl
      have hfr2 : (readStamp mid ag.id now1 sA.message_recipients).find?
          (fun r => r.message_id == mid && r.agent_id == ag.id) =
          some { r0 with read_ts := some now1 } := by
        rw [find?_readStamp, hfr]
        dsimp only [Option.map]
        rw [if_pos hp0]
      have hcall2 : (markRead
          ({ sA with message_recipients := readStamp mid ag.id now1 sA.message_recipients })
          slug name mid now2).1 = .ok { read := true, readAt := now1 } := by
        unfold markRead
        rw [hga2]
        dsimp only
        simp only [hid2]
        rw [hfr2]
      exact ⟨now1, _, hcall1, hcall2⟩

/-- A store with one message from `AmberFox` addressed to `JadeWolf`,
unread and unacknowledged. -/
def cex8Store : Store :=
  { projects := [wProject], agents := [wAmber, wJade],
    messages := [{ id := 1, project_id := 1, sender_id := 1, thread_id := none, subject := "s",
                   body_md := "b", to_agents := "JadeWolf", cc_agents := "",
                   importance := "normal", ack_required := false, created_ts := 0 }],
    message_recipients := [{ message_id := 1, agent_id := 2, kind := "to", read_ts := none,
                             ack_ts := none }],
    file_reservations := [] }

/-- Witness for C7: `JadeWolf` marking message 1 read at time 30 and again
at time 40 gets the same `readAt` both times. -/
theorem C7_witness :
    ∃ t s1, markRead cex8Store "proj" "JadeWolf" 1 30 =
        (.ok { read := true, readAt := t }, s1) ∧
      (markRead s1 "proj" "JadeWolf" 1 40).1 = .ok { read := true, readAt := t } :=
  C7_markRead_write_once cex8Store "proj" "JadeWolf" 1 30 40 wJade
    (getAgent cex8Store "proj" "JadeWolf" 30).2 (by decide)
    ⟨{ message_id := 1, agent_id := 2, kind := "to", read_ts := none, ack_ts := none },
     by decide, by decide, by decide⟩

/-- C8 (amended): `acknowledge` sets `read_ts` to the acknowledgment time
when it was null and leaves an already-set `read_ts` unchanged (ack
implies read), but the ack timestamp is **overwritten** on every call: a
second acknowledge at time `now2` returns `ackAt = now2`, not the first
call's `ackAt`, while `readAt` keeps the first call's value. -/
theorem C8_acknowledge_ack_overwritten
    (s : Store) (slug name : String) (mid now1 now2 : Nat)
    (ag : Agent) (sA : Store)
    (hga : getAgent s slug name now1 = (.ok ag, sA))
    (hrec : ∃ r ∈ s.message_recipients, r.message_id = mid ∧ r.agent_id = ag.id) :
    ∃ r0, sA.message_recipients.find?
        (fun r => r.message_id == mid && r.agent_id == ag.id) = some r0 ∧
      ∃ s1, acknowledge s slug name mid now1 =
          (.ok { acknowledged := true, ackAt := now1, readAt := r0.read_ts.getD now1 }, s1) ∧
        (acknowledge s1 slug name mid now2).1 =
          .ok { acknowledged := true, ackAt := now2, readAt := r0.read_ts.getD now1 } := by
  obtain ⟨hsA, p, hp, hfindAg⟩ := getAgent_ok_parts hga
  have hrecs : sA.message_recipients = s.message_recipients := by rw [hsA]
  cases hfr : sA.message_recipients.find?
      (fun r => r.message_id == mid && r.agent_id == ag.id) with
  | none =>
    rw [List.find?_eq_none] at hfr
    obtain ⟨r, hrm, h1, h2⟩ := hrec
    exact absurd (by simp [h1, h2]) (hfr r (hrecs ▸ hrm))
  | some r0 =>
    refine ⟨r0, rfl, ?_⟩
    have hp0 := List.find?_some hfr
    have hfr1 : (ackStamp mid ag.id now1 sA.message_recipients).find?
        (fun r => r.message_id == mid && r.agent_id == ag.id) =
        some { r0 with ack_ts := some now1, read_ts := some (r0.read_ts.getD now1) } := by
      rw [find?_ackStamp, hfr]
      dsimp only [Option.map]
      rw [if_pos hp0]
    have hcall1 : acknowledge s slug name mid now1 =
        (.ok { acknowledged := true, ackAt := now1, readAt := r0.read_ts.getD now1 },
         { sA with message_recipients := ackStamp mid ag.id now1 sA.message_recipients }) := by
      unfold acknowledge
      rw [hga]
      dsimp only
      rw [hfr]
      dsimp only
      rw [hfr1]
      rfl
    obtain ⟨ag2, hga2, hid2, _, _⟩ := getAgent_rerun hga
      ({ sA with message_recipients := ackStamp mid ag.id now1 sA.message_recipients })
      now2 (by rw [hsA]) rfl
    have hfr2 : (ackStamp mid ag.id now2 (ackStamp mid ag.id now1 sA.message_recipients)).find?
        (fun r => r.message_id == mid && r.agent_id == ag.id) =
        some { r0 with ack_ts := some now2, read_ts := some (r0.read_ts.getD now1) } := by
      rw [find?_ackStamp, hfr1]
      dsimp only [Option.map]
      rw [if_pos hp0]
      rfl
    have hcall2 : (acknowledge
        ({ sA with message_recipients := ackStamp mid ag.id now1 sA.message_recipients })
        slug name mid now2).1 =
        .ok { acknowledged := true, ackAt := now2, readAt := r0.read_ts.getD now1 } := by
      unfold acknowledge
      rw [hga2]
      dsimp only
      simp only [hid2]
      rw [hfr1]
      dsimp only
      rw [hfr2]
      rfl
    exact ⟨_, hcall1, hcall2⟩

/-- C8 counterexample: acknowledging message 1 at time 10 returns
`ackAt = 10`; a second acknowledge at time 20 returns `ackAt = 20`, not
the original value — the ack timestamp is overwritten, so the claim that a
second acknowledge returns the same `ackAt` as the first is false (while
`readAt` stays 10). -/
theorem C8_counterexample :
    (acknowledge cex8Store "proj" "JadeWolf" 1 10).1 =
      .ok { acknowledged := true, ackAt := 10, readAt := 10 } ∧
    (acknowledge (acknowledge cex8Store "proj" "JadeWolf" 1 10).2 "proj" "JadeWolf" 1 20).1 =
      .ok { acknowledged := true, ackAt := 20, readAt := 10 } ∧
    (10 : Nat) ≠ 20 := by
  exact ⟨by decide, by decide, by decide⟩

/-- Witness for C8 (amended) at the concrete store. -/
theorem C8_witness :
    ∃ r0, (getAgent cex8Store "proj" "JadeWolf" 10).2.message_recipients.find?
        (fun r => r.message_id == 1 && r.agent_id == wJade.id) = some r0 ∧
      ∃ s1, acknowledge cex8Store "proj" "JadeWolf" 1 10 =
          (.ok { acknowledged := true, ackAt := 10, readAt := r0.read_ts.getD 10 }, s1) ∧
        (acknowledge s1 "proj" "JadeWolf" 1 20).1 =
          .ok { acknowledged := true, ackAt := 20, readAt := r0.read_ts.getD 10 } :=
  C8_acknowledge_ack_overwritten cex8Store "proj" "JadeWolf" 1 10 20 wJade
    (getAgent cex8Store "proj" "JadeWolf" 10).2 (by decide)
    ⟨{ message_id := 1, agent_id := 2, kind := "to", read_ts := none, ack_ts := none },
     by decide, by decide, by decide⟩


theorem find?_fresh_append_msg (l : List Message) (row : Message)
    (hid : row.id = freshId (l.map (fun m => m.id))) :
    (l ++ [row]).find? (fun m => m.id == freshId (l.map (fun m => m.id))) = some row := by
  apply find?_append_last
  · intro m hm
    exact beq_eq_false_iff_ne.mpr
      (Nat.ne_of_lt (mem_lt_freshId (List.mem_map_of_mem (fun m => m.id) hm)))
  · rw [hid]
    exact beq_self_eq_true _

theorem resolveToList_all (slug : String) (project : Project) (sender : Agent) (now : Nat)
    (s : Store) :
    resolveToList slug project sender now s ["all"] =
      (.ok ((s.agents.filter (fun a => a.project_id == project.id && a.id != sender.id)).map
        (fun a => { agentId := a.id, agentName := a.name, kind := "to" })), s) := by
  unfold resolveToList
  rw [if_pos (by decide : (jsToLower "all" == "all") = true)]
  unfold resolveToList
  dsimp only [Except.map]
  rw [List.append_nil]

theorem resolveCcList_nil (slug : String) (now : Nat) (s : Store) :
    resolveCcList slug now s [] = (.ok [], s) := rfl

theorem touch_filter_eq (agents : List Agent) (pid sid now : Nat) :
    (touchAgent agents sid now).filter (fun a => a.project_id == pid && a.id != sid) =
      agents.filter (fun a => a.project_id == pid && a.id != sid) := by
  unfold touchAgent
  apply filter_of_map_inv
  · intro a
    split <;> rfl
  · intro a ha
    rw [if_neg]
    intro hc
    rw [Bool.and_eq_true] at ha
    rw [beq_iff_eq.mp hc] at ha
    exact absurd ha.2 (by simp)

/-- C6: in a project with N agents other than the sender, `sendMessage`
with `to = ["all"]` (case-insensitive broadcast alias) and no cc creates
exactly one MessageRecipient row of kind `to` per other agent — N rows,
sender excluded; when N = 0 the send is rejected with `NO_RECIPIENTS` and
no rows are created. -/
theorem C6_broadcast_fanout
    (s : Store) (inp : SendMessageInput) (now : Nat)
    (p : Project) (sender : Agent) (s1 : Store)
    (hwf : WF s)
    (hto : inp.toRecipients = ["all"]) (hcc : inp.cc = [])
    (himp : importanceValid (inp.importance.getD "normal") = true)
    (hp : getProject s inp.projectSlug = .ok p)
    (hs : getAgent s inp.projectSlug inp.sender now = (.ok sender, s1)) :
    (s.agents.filter (fun a => a.project_id == p.id && a.id != sender.id) ≠ [] →
      ∃ m s', sendMessage s inp now = (.ok m, s') ∧
        s'.message_recipients = s.message_recipients ++
          (s.agents.filter (fun a => a.project_id == p.id && a.id != sender.id)).map
            (fun a => { message_id := m.id, agent_id := a.id, kind := "to",
                        read_ts := none, ack_ts := none })) ∧
    (s.agents.filter (fun a => a.project_id == p.id && a.id != sender.id) = [] →
      ∃ e, sendMessage s inp now = (.error e, s1) ∧ e.type = "NO_RECIPIENTS") := by
  obtain ⟨hs1, p', hp', hfindAg⟩ := getAgent_ok_parts hs
  have hfilter : s1.agents.filter (fun a => a.project_id == p.id && a.id != sender.id) =
      s.agents.filter (fun a => a.project_id == p.id && a.id != sender.id) := by
    rw [hs1]
    exact touch_filter_eq s.agents p.id sender.id now
  unfold sendMessage
  rw [hp]
  dsimp only
  rw [hs]
  dsimp only
  rw [hto, resolveToList_all]
  dsimp only
  rw [hcc, resolveCcList_nil]
  dsimp only
  rw [hfilter, List.append_nil]
  constructor
  · -- N ≥ 1: full fan-out
    intro hne
    have hlen : (((s.agents.filter (fun a => a.project_id == p.id && a.id != sender.id)).map
        (fun a => ({ agentId := a.id, agentName := a.name, kind := "to" } : RecipientEntry))).length
          == 0) = false := by
      rw [beq_eq_false_iff_ne]
      intro hc
      rw [List.length_map] at hc
      exact hne (List.length_eq_zero.mp hc)
    rw [hlen, if_neg Bool.false_ne_true]
    rw [himp, Bool.not_true, if_neg Bool.false_ne_true]
    have hmsgs1 : s1.messages = s.messages := by rw [hs1]
    have hrecs1 : s1.message_recipients = s.message_recipients := by rw [hs1]
    have hins := insertRecipients_all_ok
      (freshId (s1.messages.map (fun m => m.id)))
      ((s.agents.filter (fun a => a.project_id == p.id && a.id != sender.id)).map
        (fun a => ({ agentId := a.id, agentName := a.name, kind := "to" } : RecipientEntry)))
      s1.message_recipients
      (by
        intro e he
        obtain ⟨a, _, rfl⟩ := List.mem_map.mp he
        rfl)
      (by
        rw [List.map_map]
        exact hwf.1.sublist ((List.filter_sublist s.agents).map (fun a => a.id)))
      (by
        intro r hr hmid
        exfalso
        rw [hrecs1] at hr
        have hfk := hwf.2.2.2 r hr
        rw [hmsgs1] at hmid
        exact absurd hmid (Nat.ne_of_lt (mem_lt_freshId hfk)))
    rw [hins]
    dsimp only
    rw [find?_fresh_append_msg _ _ rfl]
    refine ⟨_, _, rfl, ?_⟩
    rw [hrecs1, List.map_map]
    rfl
  · -- N = 0: NO_RECIPIENTS
    intro hzero
    rw [hzero]
    exact ⟨_, rfl, rfl⟩


/-- Broadcast send request from `AmberFox`. -/
def wSendInput : SendMessageInput :=
  { projectSlug := "proj", sender := "AmberFox", toRecipients := ["all"], cc := [],
    subject := "s", bodyMd := "b", threadId := none, importance := none, ackRequired := false }

/-- Witness for C6: broadcasting in the two-agent store creates exactly
one recipient row, for `JadeWolf`, of kind `to`. -/
theorem C6_witness :
    (wStore.agents.filter (fun a => a.project_id == wProject.id && a.id != wAmber.id) ≠ [] →
      ∃ m s', sendMessage wStore wSendInput 5 = (.ok m, s') ∧
        s'.message_recipients = wStore.message_recipients ++
          (wStore.agents.filter (fun a => a.project_id == wProject.id && a.id != wAmber.id)).map
            (fun a => { message_id := m.id, agent_id := a.id, kind := "to",
                        read_ts := none, ack_ts := none })) ∧
    (wStore.agents.filter (fun a => a.project_id == wProject.id && a.id != wAmber.id) = [] →
      ∃ e, sendMessage wStore wSendInput 5 = (.error e, (getAgent wStore "proj" "AmberFox" 5).2) ∧
        e.type = "NO_RECIPIENTS") :=
  C6_broadcast_fanout wStore wSendInput 5 wProject wAmber (getAgent wStore "proj" "AmberFox" 5).2
    (by refine ⟨by decide, by decide, by decide, by decide⟩) (by decide) (by decide) (by decide)
    (by decide) (by decide)

theorem MHR_of_sameShape {s s' : Store} (h : sameShape s s')
    (hinv : MessagesHaveRecipients s) : MessagesHaveRecipients s' := by
  intro m hm
  rw [h.2.1] at hm
  obtain ⟨r, hr, hrm⟩ := hinv m hm
  refine ⟨r, ?_, hrm⟩
  rw [h.2.2.1]
  exact hr

theorem sendMessage_MHR (s : Store) (inp : SendMessageInput) (now : Nat)
    (hwf : WF s) (hinv : MessagesHaveRecipients s) :
    MessagesHaveRecipients (sendMessage s inp now).2 := by
  unfold sendMessage
  cases hp : getProject s inp.projectSlug with
  | error e => exact hinv
  | ok p =>
    dsimp only
    cases hga : getAgent s inp.projectSlug inp.sender now with
    | mk gres s1 =>
      have shape1 : sameShape s s1 := by
        have := getAgent_sameShape s inp.projectSlug inp.sender now
        rw [hga] at this
        exact this
      cases gres with
      | error e => exact MHR_of_sameShape shape1 hinv
      | ok sender =>
        dsimp only
        cases hres : resolveToList inp.projectSlug p sender now s1 inp.toRecipients with
        | mk rres s2 =>
          have shape2 : sameShape s s2 := by
            have := resolveToList_sameShape inp.projectSlug p sender now inp.toRecipients s1
            rw [hres] at this
            exact sameShape_trans shape1 this
          cases rres with
          | error e => exact MHR_of_sameShape shape2 hinv
          | ok toEntries =>
            dsimp only
            cases hccres : resolveCcList inp.projectSlug now s2 inp.cc with
            | mk cres s3 =>
              have shape3 : sameShape s s3 := by
                have := resolveCcList_sameShape inp.projectSlug now inp.cc s2
                rw [hccres] at this
                exact sameShape_trans shape2 this
              cases cres with
              | error e => exact MHR_of_sameShape shape3 hinv
              | ok ccEntries =>
                dsimp only
                cases hlen : ((toEntries ++ ccEntries).length == 0) with
                | true =>
                  rw [if_pos rfl]
                  exact MHR_of_sameShape shape3 hinv
                | false =>
                  rw [if_neg Bool.false_ne_true]
                  cases himp : importanceValid (inp.importance.getD "normal") with
                  | false =>
                    rw [Bool.not_false, if_pos rfl]
                    exact MHR_of_sameShape shape3 hinv
                  | true =>
                    rw [Bool.not_true, if_neg Bool.false_ne_true]
                    cases hentries : toEntries ++ ccEntries with
                    | nil =>
                      rw [hentries] at hlen
                      cases hlen
                    | cons e0 rest =>
                      have hkind0 : kindValid e0.kind = true := by
                        have hmem : e0 ∈ toEntries ++ ccEntries := by
                          rw [hentries]
                          exact List.mem_cons_self e0 rest
                        rcases List.mem_append.mp hmem with hm | hm
                        · rw [resolveToList_kinds inp.projectSlug p sender now inp.toRecipients
                            s1 toEntries s2 hres e0 hm]
                          rfl
                        · rw [resolveCcList_kinds inp.projectSlug now inp.cc s2 ccEntries s3
                            hccres e0 hm]
                          rfl
                      have hno : s3.message_recipients.any (fun r =>
                          r.message_id == freshId (s3.messages.map (fun m => m.id)) &&
                          r.agent_id == e0.agentId) = false := by
                        cases hq : s3.message_recipients.any (fun r =>
                            r.message_id == freshId (s3.messages.map (fun m => m.id)) &&
                            r.agent_id == e0.agentId) with
                        | false => rfl
                        | true =>
                          exfalso
                          obtain ⟨r, hrmem, hrp⟩ := List.any_eq_true.mp hq
                          rw [Bool.and_eq_true] at hrp
                          have hmid := beq_iff_eq.mp hrp.1
                          rw [shape3.2.2.1] at hrmem
                          have hfk := hwf.2.2.2 r hrmem
                          rw [shape3.2.1] at hmid
                          exact absurd hmid (Nat.ne_of_lt (mem_lt_freshId hfk))
                      have happine := insertRecipients_appends
                        (freshId (s3.messages.map (fun m => m.id))) (e0 :: rest)
                        s3.message_recipients
                      have hmem0 := insertRecipients_head_mem
                        (freshId (s3.messages.map (fun m => m.id))) e0 rest
                        s3.message_recipients hkind0 hno
                      cases hins : insertRecipients (freshId (s3.messages.map (fun m => m.id)))
                          (e0 :: rest) s3.message_recipients with
                      | mk okflag rows =>
                        rw [hins] at happine hmem0
                        obtain ⟨t, ht⟩ := happine
                        dsimp only at ht hmem0
                        have key : ∀ m ∈ s3.messages ++
                            [({ id := freshId (s3.messages.map (fun m => m.id)),
                                project_id := p.id, sender_id := sender.id,
                                thread_id := inp.threadId, subject := inp.subject,
                                body_md := inp.bodyMd,
                                to_agents := joinComma (((e0 :: rest).filter
                                  (fun r => r.kind == "to")).map (fun r => r.agentName)),
                                cc_agents := joinComma (((e0 :: rest).filter
                                  (fun r => r.kind == "cc")).map (fun r => r.agentName)),
                                importance := inp.importance.getD "normal",
                                ack_required := inp.ackRequired,
                                created_ts := now } : Message)],
                            ∃ r ∈ rows, r.message_id = m.id := by
                          intro m hm
                          rcases List.mem_append.mp hm with hm | hm
                          · rw [shape3.2.1] at hm
                            obtain ⟨r, hr, hrm⟩ := hinv m hm
                            refine ⟨r, ?_, hrm⟩
                            rw [ht]
                            apply List.mem_append.mpr
                            left
                            rw [shape3.2.2.1]
                            exact hr
                          · rw [List.mem_singleton.mp hm]
                            exact ⟨recipientRow (freshId (s3.messages.map
                              (fun m : Message => m.id))) e0, hmem0, rfl⟩
                        cases okflag with
                        | false => exact key
                        | true =>
                          cases hfind : (s3.messages ++
                              [({ id := freshId (s3.messages.map (fun m => m.id)),
                                  project_id := p.id, sender_id := sender.id,
                                  thread_id := inp.threadId, subject := inp.subject,
                                  body_md := inp.bodyMd,
                                  to_agents := joinComma (((e0 :: rest).filter
                                    (fun r => r.kind == "to")).map (fun r => r.agentName)),
                                  cc_agents := joinComma (((e0 :: rest).filter
                                    (fun r => r.kind == "cc")).map (fun r => r.agentName)),
                                  importance := inp.importance.getD "normal",
                                  ack_required := inp.ackRequired,
                                  created_ts := now } : Message)]).find?
                              (fun m => m.id == freshId (s3.messages.map (fun m => m.id))) with
                          | some m => exact key
                          | none => exact key


theorem sendMessage_abort_clean (s : Store) (inp : SendMessageInput) (now : Nat)
    (p : Project) (hp : getProject s inp.projectSlug = .ok p)
    (hbad : (∃ n ∈ inp.toRecipients, jsToLower n ≠ "all" ∧
        s.agents.any (fun a => a.project_id == p.id && a.name == n) = false) ∨
      (∃ n ∈ inp.cc, s.agents.any (fun a => a.project_id == p.id && a.name == n) = false)) :
    (∃ e, (sendMessage s inp now).1 = .error e) ∧
    (sendMessage s inp now).2.messages = s.messages ∧
    (sendMessage s inp now).2.message_recipients = s.message_recipients := by
  have hconv : ∀ n, s.agents.any (fun a => a.project_id == p.id && a.name == n) = false →
      agentResolvable s inp.projectSlug n = false := by
    intro n h
    unfold agentResolvable
    rw [hp]
    exact h
  unfold sendMessage
  rw [hp]
  dsimp only
  cases hga : getAgent s inp.projectSlug inp.sender now with
  | mk gres s1 =>
    have shape1 : sameShape s s1 := by
      have := getAgent_sameShape s inp.projectSlug inp.sender now
      rw [hga] at this
      exact this
    cases gres with
    | error e => exact ⟨⟨e, rfl⟩, shape1.2.1, shape1.2.2.1⟩
    | ok sender =>
      dsimp only
      rcases hbad with ⟨n, hn, hlow, hres⟩ | ⟨n, hn, hres⟩
      · -- an unresolvable (non-broadcast) entry in `to`
        have hres1 : agentResolvable s1 inp.projectSlug n = false := by
          rw [agentResolvable_congr shape1.1 shape1.2.2.2.2 inp.projectSlug n]
          exact hconv n hres
        obtain ⟨e, s', herr⟩ := resolveToList_err inp.projectSlug p sender now
          inp.toRecipients s1 ⟨n, hn, hlow, hres1⟩
        rw [herr]
        have shape' : sameShape s s' := by
          have := resolveToList_sameShape inp.projectSlug p sender now inp.toRecipients s1
          rw [herr] at this
          exact sameShape_trans shape1 this
        exact ⟨⟨e, rfl⟩, shape'.2.1, shape'.2.2.1⟩
      · -- an unresolvable entry in `cc`
        cases hres1 : resolveToList inp.projectSlug p sender now s1 inp.toRecipients with
        | mk rres s2 =>
          have shape2 : sameShape s s2 := by
            have := resolveToList_sameShape inp.projectSlug p sender now inp.toRecipients s1
            rw [hres1] at this
            exact sameShape_trans shape1 this
          cases rres with
          | error e => exact ⟨⟨e, rfl⟩, shape2.2.1, shape2.2.2.1⟩
          | ok toEntries =>
            dsimp only
            have hres2 : agentResolvable s2 inp.projectSlug n = false := by
              rw [agentResolvable_congr shape2.1 shape2.2.2.2.2 inp.projectSlug n]
              exact hconv n hres
            obtain ⟨e, s', herr⟩ := resolveCcList_err inp.projectSlug now inp.cc s2
              ⟨n, hn, hres2⟩
            rw [herr]
            have shape' : sameShape s s' := by
              have := resolveCcList_sameShape inp.projectSlug now inp.cc s2
              rw [herr] at this
              exact sameShape_trans shape2 this
            exact ⟨⟨e, rfl⟩, shape'.2.1, shape'.2.2.1⟩

/-- C3 (amended): `sendMessage` never leaves a Message row with zero
MessageRecipient rows, and when any entry of `to` (other than the
broadcast alias) or of `cc` fails to resolve, the send aborts with an
error and the `messages` and `message_recipients` tables are unchanged —
the store is not literally unchanged, because the `last_active_ts`
refreshes performed while resolving the sender and earlier recipients
persist. -/
theorem C3_send_abort_no_partial_delivery
    (s : Store) (inp : SendMessageInput) (now : Nat)
    (hwf : WF s) (hinv : MessagesHaveRecipients s) :
    MessagesHaveRecipients (sendMessage s inp now).2 ∧
    (∀ p, getProject s inp.projectSlug = .ok p →
      ((∃ n ∈ inp.toRecipients, jsToLower n ≠ "all" ∧
          s.agents.any (fun a => a.project_id == p.id && a.name == n) = false) ∨
       (∃ n ∈ inp.cc, s.agents.any (fun a => a.project_id == p.id && a.name == n) = false)) →
      (∃ e, (sendMessage s inp now).1 = .error e) ∧
      (sendMessage s inp now).2.messages = s.messages ∧
      (sendMessage s inp now).2.message_recipients = s.message_recipients) :=
  ⟨sendMessage_MHR s inp now hwf hinv,
   fun p hp hbad => sendMessage_abort_clean s inp now p hp hbad⟩

/-- Send request naming an agent that does not exist. -/
def cex3Input : SendMessageInput :=
  { projectSlug := "proj", sender := "AmberFox", toRecipients := ["Nobody"], cc := [],
    subject := "s", bodyMd := "b", threadId := none, importance := none, ackRequired := false }

/-- C3 counterexample: a send with an unresolvable recipient aborts with
`AGENT_NOT_FOUND` and creates no message or recipient rows, but the store
is **not** unchanged on the error path: resolving the sender refreshed its
`last_active_ts`, so the claim's parenthetical "the store is unchanged" is
false. -/
theorem C3_counterexample :
    (sendMessage wStore cex3Input 5).1 =
      .error { type := "AGENT_NOT_FOUND", message := "Agent not found: Nobody",
               recoverable := true, data := none } ∧
    (sendMessage wStore cex3Input 5).2 ≠ wStore ∧
    (sendMessage wStore cex3Input 5).2.messages = wStore.messages ∧
    (sendMessage wStore cex3Input 5).2.message_recipients = wStore.message_recipients := by
  exact ⟨by decide, by decide, by decide, by decide⟩

/-- Witness for C3 (amended) at the concrete store: the bad send errors
with the message tables untouched, and the invariant is preserved. -/
theorem C3_witness :
    (MessagesHaveRecipients (sendMessage wStore cex3Input 5).2 ∧
      (∀ p, getProject wStore cex3Input.projectSlug = .ok p →
        ((∃ n ∈ cex3Input.toRecipients, jsToLower n ≠ "all" ∧
            wStore.agents.any (fun a => a.project_id == p.id && a.name == n) = false) ∨
         (∃ n ∈ cex3Input.cc,
            wStore.agents.any (fun a => a.project_id == p.id && a.name == n) = false)) →
        (∃ e, (sendMessage wStore cex3Input 5).1 = .error e) ∧
        (sendMessage wStore cex3Input 5).2.messages = wStore.messages ∧
        (sendMessage wStore cex3Input 5).2.message_recipients = wStore.message_recipients)) :=
  C3_send_abort_no_partial_delivery wStore cex3Input 5
    (by refine ⟨by decide, by decide, by decide, by decide⟩)
    (by intro m hm; cases hm)

end Amicii
